import Mathlib

/-!
# Verification of the mcbe-pack-merge content merge engine

Shallow embedding of `src/core.ts` and `src/core_plugin.ts`.

Modelling conventions:
* JS `Map` / plain-object records are insertion-ordered association lists
  (`List (String × α)`); `Map.set` on a fresh key appends, and the engine
  never overwrites an existing key in a dedup table (`setOrDuplicateIdWarning`
  returns early), so append-only lists are faithful.
* Semantic versions (`semver`) are triples of naturals; `semver.gt` is the
  numeric lexicographic comparison, which is exactly what node-semver computes
  on plain `maj.min.patch` strings; the source's round trip through
  `"a.b.c"` strings is the identity on such triples.
* File-system effects are modelled as association lists from full output path
  to file content; `fs.cp` / `fs.writeFileSync` overwrite an existing
  destination in place (node's default `force: true`).
* Thrown errors (`throw new Error`) are `Except.error`; the orchestrator
  aborts on the first one, matching the rejected `Promise.all`.
* Concurrently dispatched sub-directories are processed sequentially in listing
  order: per §5 of the design, a category sub-directory occurs at most once per
  pack module, so every dedup table is touched by at most one strategy call per
  module and the sequentialisation does not change any table; the warning
  counter is a commutative sum.
-/

namespace PackMerge

/-- `path.join` on the (always nonempty, already clean) segments the engine
builds: plain `/`-concatenation. -/
def pj (a b : String) : String := a ++ "/" ++ b

/-- `p.startsWith(pre)`: character-list prefix test. -/
def strStartsWith (s pre : String) : Bool := pre.data.isPrefixOf s.data

/-- `p.endsWith(post)`: character-list suffix test. -/
def strEndsWith (s post : String) : Bool := post.data.isSuffixOf s.data

/-- `s.slice(n)` / Lean `String.drop`: drop the first `n` characters. -/
def strDrop (s : String) (n : Nat) : String := ⟨s.data.drop n⟩

/-- `path.basename(name, ext)` when `name` ends in `ext`: drop the last `n`
characters. -/
def strDropRight (s : String) (n : Nat) : String :=
  ⟨s.data.take (s.data.length - n)⟩

/-- The whitespace characters `String.prototype.trim` removes from the
line-oriented `.lang` input. -/
def isJsSpace (c : Char) : Bool := c = ' ' ∨ c = '\t' ∨ c = '\n' ∨ c = '\r'

/-- `line.trim()`: strip whitespace from both ends. -/
def strTrim (s : String) : String :=
  ⟨((s.data.dropWhile isJsSpace).reverse.dropWhile isJsSpace).reverse⟩

/-- Segment accumulator for `splitOnChar`: walk the characters, cutting at
each separator; `acc` holds the current segment reversed. -/
def splitOnCharAux : Char → List Char → List Char → List String
  | _, [], acc => [⟨acc.reverse⟩]
  | c, x :: xs, acc =>
    if x = c then ⟨acc.reverse⟩ :: splitOnCharAux c xs []
    else splitOnCharAux c xs (x :: acc)

/-- `content.split(sep)` for a one-character separator. -/
def splitOnChar (sep : Char) (s : String) : List String :=
  splitOnCharAux sep s.data []

/-- A semantic version `major.minor.patch`, the parsed form of the version
strings the source manipulates. -/
structure SemVer where
  major : Nat
  minor : Nat
  patch : Nat
deriving DecidableEq, Repr

/-- Rendering back to the `maj.min.patch` string used in messages. -/
def SemVer.toStr (v : SemVer) : String :=
  toString v.major ++ "." ++ toString v.minor ++ "." ++ toString v.patch

/-- `semver.gt`: strict numeric-lexicographic comparison of plain triples. -/
def semverGt (a b : SemVer) : Bool :=
  a.major > b.major ∨
    (a.major = b.major ∧ (a.minor > b.minor ∨
      (a.minor = b.minor ∧ a.patch > b.patch)))

/-- Non-strict companion of `semverGt`. -/
def semverLe (a b : SemVer) : Bool := !semverGt a b

/-- Upper bound of the caret range `^base` in node-semver, for plain triples:
`^x.y.z` is `< (x+1).0.0` when `x > 0`, `^0.y.z` is `< 0.(y+1).0` when
`y > 0`, and `^0.0.z` is `< 0.0.(z+1)`. -/
def caretUpper (base : SemVer) : SemVer :=
  if base.major > 0 then ⟨base.major + 1, 0, 0⟩
  else if base.minor > 0 then ⟨0, base.minor + 1, 0⟩
  else ⟨0, 0, base.patch + 1⟩

/-- `semver.satisfies(v, "^base")` for plain triples: at least `base` and
strictly below the caret upper bound. -/
def semverSatisfiesCaret (v base : SemVer) : Bool :=
  !semverGt base v ∧ semverGt (caretUpper base) v

/-- Update an association list at a key, keeping the key's position when it is
already present and appending otherwise — the behaviour of JS `Map.set` and of
assignment to a record field. -/
def setAssoc (l : List (String × α)) (k : String) (v : α) :
    List (String × α) :=
  match l with
  | [] => [(k, v)]
  | (k', v') :: rest =>
    if k' = k then (k', v) :: rest else (k', v') :: setAssoc rest k v

/-- The mutable locals of one `mergePacks` run plus the observable effects it
produces: the warning counter, the pino log stream, the manual-merge record,
the version state, the collected script entry points, and the files written
below the two output module roots (full path ↦ content). -/
structure RunState where
  warningsCount : Nat
  log : List String
  manualMergesRequired : List String
  minEngineVersion : SemVer
  scriptModuleVersions : List (String × SemVer)
  scriptEntryPoints : List String
  bpFiles : List (String × String)
  rpFiles : List (String × String)
deriving DecidableEq, Repr

/-- `pluginApi.warn`: log the message and bump the run-wide warning total. -/
def warn (msg : String) (rs : RunState) : RunState :=
  { rs with warningsCount := rs.warningsCount + 1, log := rs.log ++ [msg] }

/-- `pluginApi.info`: log only. -/
def info (msg : String) (rs : RunState) : RunState :=
  { rs with log := rs.log ++ [msg] }

/-- `pluginApi.requireManualMerge`: record `'file' - reason` and emit the
corresponding warning. -/
def requireManualMerge (fileName reason : String) (rs : RunState) : RunState :=
  let m := "'" ++ fileName ++ "' - " ++ reason
  warn ("Manual merge required for " ++ m)
    { rs with manualMergesRequired := rs.manualMergesRequired ++ [m] }

/-- The module-level state of `core_plugin.ts`: the eight dedup tables plus
the per-language translation tables. It lives at module scope in the source,
so it persists across `mergePacks` invocations within one process. -/
structure CoreState where
  blockIds : List (String × String)
  entityIds : List (String × String)
  itemIds : List (String × String)
  recipeIds : List (String × String)
  texts : List (String × List (String × Option String))
  geometries : List (String × String)
  flipbookTextureData : List (String × String)
  itemTextureData : List (String × String)
  terrainTextureData : List (String × String)
deriving DecidableEq, Repr

/-- The state a fresh process starts with: every table empty. -/
def CoreState.empty : CoreState := ⟨[], [], [], [], [], [], [], [], []⟩

/-- The duplicate warning text of `setOrDuplicateIdWarning`, with the original
file name known. -/
def dupMsgWithOrig (key fullFileName originalFileName : String) : String :=
  "Duplicate definition for '" ++ key ++ "' at '" ++ fullFileName ++
    "'. The original value at '" ++ originalFileName ++
    "' will take precedence."

/-- The duplicate warning text when no original file name was supplied. -/
def dupMsgNoOrig (key fullFileName : String) : String :=
  "Duplicate definition for '" ++ key ++ "' at '" ++ fullFileName ++
    "'. The original value will take precedence."

/-- `setOrDuplicateIdWarning`: first-write-wins insertion into a dedup table.
If the key is present, optionally warn (naming the original file when given)
and report rejection; otherwise record the value and report acceptance.
`dupWarn` is `config.duplicateIdentifierWarnings`. -/
def setOrDuplicateIdWarning (dupWarn : Bool) (fullFileName : String)
    (map : List (String × α)) (key : String) (value : α)
    (originalFileName : Option String) (rs : RunState) :
    List (String × α) × Bool × RunState :=
  match map.lookup key with
  | some _ =>
    (map, false,
      if dupWarn then
        warn
          (match originalFileName with
           | some orig => dupMsgWithOrig key fullFileName orig
           | none => dupMsgNoOrig key fullFileName) rs
      else rs)
  | none => (map ++ [(key, value)], true, rs)

/-- One content file found below an identifier-keyed sub-directory
(`blocks` / `entities` / `items` / `recipes`).
`relDir` is the file's directory relative to the sub-directory root (the
recursive `readdir` descends into nested directories); `name` is the base
file name; `rootEntries` is the parsed JSON object's top-level keys in
insertion order, each with the `description.identifier` found under it;
`raw` is the verbatim file content copied by `fs.cp`. -/
structure ContentFile where
  relDir : String
  name : String
  rootEntries : List (String × String)
  raw : String
deriving DecidableEq, Repr

/-- `mergeWithDuplicateIdCheck` on one file: locate the first top-level key
namespaced `minecraft:` (throwing when none exists), look up its identifier in
the category table, and on acceptance copy the file — under its base name
only — into `<outBP>/<subDirName>/<addonName>/`. -/
def mergeIdFile (dupWarn : Bool) (destDir fullSubDirName : String)
    (ids : List (String × String)) (rs : RunState) (file : ContentFile) :
    Except String (List (String × String) × RunState) := do
  let fullFileName := pj fullSubDirName file.name
  let some rootEntry := file.rootEntries.find? (fun p =>
      strStartsWith p.1 "minecraft:")
    | throw ("Cannot get root object key for file '" ++ fullFileName ++ "'.")
  let id := rootEntry.2
  let (ids', accepted, rs') :=
    setOrDuplicateIdWarning dupWarn fullFileName ids id fullFileName
      (ids.lookup id) rs
  if accepted then
    return (ids', { rs' with
      bpFiles := setAssoc rs'.bpFiles (pj destDir file.name) file.raw })
  else
    return (ids', rs')

/-- `mergeWithDuplicateIdCheck`: fold `mergeIdFile` over the recursive
directory listing. -/
def mergeWithDuplicateIdCheck (dupWarn : Bool)
    (outBpPath subDirName addonName fullSubDirName : String)
    (files : List ContentFile) (ids : List (String × String))
    (rs : RunState) :
    Except String (List (String × String) × RunState) :=
  let destDir := pj (pj outBpPath subDirName) addonName
  files.foldlM
    (fun (acc : List (String × String) × RunState) file =>
      mergeIdFile dupWarn destDir fullSubDirName acc.1 acc.2 file)
    (ids, rs)

/-- `line.split(/=(.*)/)` destructured to `[key, value]`: the part before the
first `=` and, when an `=` exists, everything after it (`none` models the
JS `undefined` obtained on a line without `=`). -/
def splitFirstEq (line : String) : String × Option String :=
  let pre := line.data.takeWhile (fun c => !(c = '='))
  let post := line.data.dropWhile (fun c => !(c = '='))
  match post with
  | [] => (⟨pre⟩, none)
  | _ :: rest => (⟨pre⟩, some ⟨rest⟩)

/-- The body of the `.lang` line loop in `mergeTexts`: trim, skip blank and
`##` comment lines, split on the first `=`, drop the two pack-metadata keys,
and insert first-write-wins into the language's translation table. -/
def processLangLine (dupWarn : Bool) (fullFileName : String)
    (acc : List (String × Option String) × RunState) (lineRaw : String) :
    List (String × Option String) × RunState :=
  let line := strTrim lineRaw
  if line = "" ∨ strStartsWith line "##" then acc
  else
    let (key, value) := splitFirstEq line
    if key = "pack.name" ∨ key = "pack.description" then acc
    else
      let (tbl, _, rs) :=
        setOrDuplicateIdWarning dupWarn fullFileName acc.1 key value none acc.2
      (tbl, rs)

/-- One directory entry of a `texts` sub-directory as `readdir` reports it. -/
structure TextFile where
  name : String
  isDir : Bool
  content : String
deriving DecidableEq, Repr

/-- `mergeTexts`: nested directories and non-`.lang` files (except the skipped
`languages.json`) go to manual merge; each `.lang` file feeds the translation
table of the language named by its base name. A fresh language is registered
even before any line is read (`texts.set(language, new Map())`). -/
def mergeTexts (dupWarn : Bool) (fullSubDirName : String)
    (files : List TextFile)
    (texts : List (String × List (String × Option String))) (rs : RunState) :
    List (String × List (String × Option String)) × RunState :=
  files.foldl
    (fun (acc : List (String × List (String × Option String)) × RunState)
        file =>
      let fullFileName := pj fullSubDirName file.name
      if file.isDir then
        (acc.1,
          requireManualMerge fullFileName
            "Directories inside 'texts' are unsupported." acc.2)
      else if file.name = "languages.json" then acc
      else if !strEndsWith file.name ".lang" then
        (acc.1, requireManualMerge fullFileName "Unsupported file." acc.2)
      else
        let language := strDropRight file.name 5
        let translations := (acc.1.lookup language).getD []
        let (tbl, rs') := (splitOnChar '\n' file.content).foldl
          (processLangLine dupWarn fullFileName) (translations, acc.2)
        (setAssoc acc.1 language tbl, rs'))
    (texts, rs)

/-- One parsed model file of a `models` sub-directory: format version plus the
`minecraft:geometry` array (identifier and serialized geometry object). -/
structure ModelFile where
  name : String
  format_version : String
  geoms : List (String × String)
deriving DecidableEq, Repr

/-- `mergeModels`: reject any format version other than `1.12.0` to manual
merge; otherwise dedup each declared geometry by identifier into the shared
geometry table. -/
def mergeModels (dupWarn : Bool) (fullSubDirName : String)
    (files : List ModelFile) (geometries : List (String × String))
    (rs : RunState) : List (String × String) × RunState :=
  files.foldl
    (fun (acc : List (String × String) × RunState) file =>
      let fullFileName := pj fullSubDirName file.name
      if file.format_version ≠ "1.12.0" then
        (acc.1,
          requireManualMerge fullFileName
            ("Format version '" ++ file.format_version ++
              "' is unsupported, expected '1.12.0'.") acc.2)
      else
        file.geoms.foldl
          (fun (acc : List (String × String) × RunState) g =>
            let (tbl, _, rs') :=
              setOrDuplicateIdWarning dupWarn fullFileName acc.1 g.1 g.2
                none acc.2
            (tbl, rs'))
          acc)
    (geometries, rs)

/-- `fs.cp(src, dest, {recursive: true})`: copy every file of the tree
(relative path ↦ content) below `destRoot`, overwriting existing
destinations (node's default `force: true`). -/
def cpTree (tree : List (String × String)) (destRoot : String)
    (out : List (String × String)) : List (String × String) :=
  tree.foldl (fun acc p => setAssoc acc (pj destRoot p.1) p.2) out

/-- A `textures` sub-directory as `mergeTextures` observes it: the parsed
content of the three fixed-name aggregate files when they exist
(`fs.existsSync`), and the raw file tree (relative path ↦ content) that the
final recursive `fs.cp` copies — the tree includes the aggregate files
themselves when present. -/
structure TexturesIn where
  flipbook : Option (List (String × String))
  itemTex : Option (List (String × String))
  terrainTex : Option (List (String × String))
  tree : List (String × String)
deriving DecidableEq, Repr

/-- Fold of `setOrDuplicateIdWarning` over the entries of one aggregate
texture file. -/
def mergeTextureEntries (dupWarn : Bool) (fullName : String)
    (entries : List (String × String)) (tbl : List (String × String))
    (rs : RunState) : List (String × String) × RunState :=
  entries.foldl
    (fun (acc : List (String × String) × RunState) e =>
      let (tbl', _, rs') :=
        setOrDuplicateIdWarning dupWarn fullName acc.1 e.1 e.2 none acc.2
      (tbl', rs'))
    (tbl, rs)

/-- `mergeTextures`: merge the three aggregate files (when present) into the
shared flipbook / item / terrain tables, then copy the whole sub-directory
tree into `<outRP>/textures`. -/
def mergeTextures (dupWarn : Bool) (outRpPath fullSubDirName : String)
    (t : TexturesIn) (cs : CoreState) (rs : RunState) :
    CoreState × RunState :=
  let (flip, rs) :=
    match t.flipbook with
    | some entries =>
      mergeTextureEntries dupWarn (pj fullSubDirName "flipbook_textures.json")
        entries cs.flipbookTextureData rs
    | none => (cs.flipbookTextureData, rs)
  let (item, rs) :=
    match t.itemTex with
    | some entries =>
      mergeTextureEntries dupWarn (pj fullSubDirName "item_texture.json")
        entries cs.itemTextureData rs
    | none => (cs.itemTextureData, rs)
  let (terrain, rs) :=
    match t.terrainTex with
    | some entries =>
      mergeTextureEntries dupWarn (pj fullSubDirName "terrain_texture.json")
        entries cs.terrainTextureData rs
    | none => (cs.terrainTextureData, rs)
  ({ cs with
      flipbookTextureData := flip, itemTextureData := item,
      terrainTextureData := terrain },
    { rs with rpFiles := cpTree t.tree (pj outRpPath "textures") rs.rpFiles })

/-- The parsed content of one package sub-directory, by category. Pairing a
category name with data of a different shape encodes a directory tree the
matching strategy could not have parsed; such junk inputs never arise from a
real file system and are treated as unclaimed. -/
inductive SubDirData where
  | ids (files : List ContentFile)
  | texts (files : List TextFile)
  | models (files : List ModelFile)
  | textures (t : TexturesIn)
  | tree (files : List (String × String))
deriving Repr

/-- The `MergeSubDirPayload` handed to every `mergeSubDir` hook. -/
structure Payload where
  addonName : String
  packName : String
  subDirName : String
  fullSubDirName : String
  subDirPath : String
deriving DecidableEq, Repr

/-- The core plugin's `mergeSubDir` hook: dispatch on the sub-directory name
and report whether the sub-directory was claimed. -/
def coreMergeSubDir (dupWarn : Bool) (outBpPath outRpPath : String)
    (p : Payload) (data : SubDirData) (cs : CoreState) (rs : RunState) :
    Except String (Bool × CoreState × RunState) :=
  match p.subDirName, data with
  | "blocks", .ids files => do
    let (ids, rs) ← mergeWithDuplicateIdCheck dupWarn outBpPath p.subDirName
      p.addonName p.fullSubDirName files cs.blockIds rs
    return (true, { cs with blockIds := ids }, rs)
  | "entities", .ids files => do
    let (ids, rs) ← mergeWithDuplicateIdCheck dupWarn outBpPath p.subDirName
      p.addonName p.fullSubDirName files cs.entityIds rs
    return (true, { cs with entityIds := ids }, rs)
  | "items", .ids files => do
    let (ids, rs) ← mergeWithDuplicateIdCheck dupWarn outBpPath p.subDirName
      p.addonName p.fullSubDirName files cs.itemIds rs
    return (true, { cs with itemIds := ids }, rs)
  | "models", .models files =>
    let (geoms, rs) :=
      mergeModels dupWarn p.fullSubDirName files cs.geometries rs
    return (true, { cs with geometries := geoms }, rs)
  | "recipes", .ids files => do
    let (ids, rs) ← mergeWithDuplicateIdCheck dupWarn outBpPath p.subDirName
      p.addonName p.fullSubDirName files cs.recipeIds rs
    return (true, { cs with recipeIds := ids }, rs)
  | "scripts", .tree files =>
    return (true, cs,
      { rs with
        bpFiles :=
          cpTree files (pj (pj outBpPath "scripts") p.addonName) rs.bpFiles })
  | "texts", .texts files =>
    let (t, rs) := mergeTexts dupWarn p.fullSubDirName files cs.texts rs
    return (true, { cs with texts := t }, rs)
  | "textures", .textures t =>
    let (cs, rs) := mergeTextures dupWarn outRpPath p.fullSubDirName t cs rs
    return (true, cs, rs)
  | _, _ => return (false, cs, rs)

/-- The run configuration; `input` stands in for the input specification
(directory or pack list), which the engine only reads. -/
structure Config where
  input : String
  outDir : String
  duplicateIdentifierWarnings : Option Bool
deriving DecidableEq, Repr

/-- One call an external plugin can make through the `PluginApi` — the hook
contract exposes exactly `warn`, `info` and `requireManualMerge` as
state-changing operations (plus the read-only config and path accessors). -/
inductive ApiAction where
  | warnA (msg : String)
  | infoA (msg : String)
  | manualMergeA (fileName reason : String)

/-- Apply one `PluginApi` call to the run state. -/
def applyAction (rs : RunState) (a : ApiAction) : RunState :=
  match a with
  | .warnA m => warn m rs
  | .infoA m => info m rs
  | .manualMergeA f r => requireManualMerge f r rs

/-- A registered plugin: the built-in core plugin, or an external plugin with
optional `mergeSubDir` and `finishUp` hooks. An external hook sees the
(defaulted) config and its payload, and acts only through the `PluginApi`:
it returns its claim status and the API calls it makes, in order. -/
inductive PluginM where
  | core
  | custom (onSubDir : Option (Config → Payload → Bool × List ApiAction))
      (onFinishUp : Option (Config → List ApiAction))

/-- One iteration of the plugin loop of `mergePackSubDir`: invoke `pl`'s
`mergeSubDir` hook (an absent hook yields the falsy `undefined`) and fold its
claim status into the accumulator. -/
def pluginStep (cfg : Config) (outBpPath outRpPath : String) (p : Payload)
    (data : SubDirData) (acc : Bool × CoreState × RunState) (pl : PluginM) :
    Except String (Bool × CoreState × RunState) := do
  match pl with
  | .core => do
    let (r, cs, rs) ←
      coreMergeSubDir (cfg.duplicateIdentifierWarnings.getD true)
        outBpPath outRpPath p data acc.2.1 acc.2.2
    return (acc.1 || r, cs, rs)
  | .custom onSubDir _ =>
    match onSubDir with
    | none => return acc
    | some h =>
      let (r, actions) := h cfg p
      return (acc.1 || r, acc.2.1, actions.foldl applyAction acc.2.2)

/-- `mergePackSubDir`: invoke every plugin's `mergeSubDir` hook in
registration order, remember whether any returned `true`, and when none did,
record the fallback manual-merge requirement. -/
def mergePackSubDir (cfg : Config) (outBpPath outRpPath : String)
    (plugins : List PluginM) (p : Payload) (data : SubDirData)
    (cs : CoreState) (rs : RunState) :
    Except String (CoreState × RunState) := do
  let (merged, cs, rs) ← plugins.foldlM
    (pluginStep cfg outBpPath outRpPath p data) (false, cs, rs)
  if merged then
    return (cs, rs)
  else
    return (cs,
      requireManualMerge p.fullSubDirName "Subdirectory could not be merged."
        rs)

/-- One module entry of a pack manifest. -/
structure ModuleDecl where
  type : String
  entry : Option String
deriving DecidableEq, Repr

/-- One dependency entry of a pack manifest (`module_name` is optional). -/
structure Dep where
  module_name : Option String
  version : SemVer
deriving DecidableEq, Repr

/-- The fields of `manifest.json` that `mergePack` reads. -/
structure Manifest where
  min_engine_version : SemVer
  modules : List ModuleDecl
  dependencies : List Dep
deriving DecidableEq, Repr

/-- A named sub-directory of a pack module with its parsed content. -/
structure SubDir where
  name : String
  data : SubDirData
deriving Repr

/-- One pack module directory (BP or RP half) inside a decompressed addon. -/
structure PackModule where
  name : String
  manifest : Manifest
  subDirs : List SubDir
deriving Repr

/-- One decompressed input archive. -/
structure Addon where
  name : String
  modules : List PackModule
deriving Repr

/-- The version-incompatibility warning text of the dependency loop. -/
def incompatMsg (name : String) (v ex : SemVer) : String :=
  "Script module '" ++ name ++ "' versions '" ++ v.toStr ++ "' and '" ++
    ex.toStr ++ "' are incompatible. This may cause script errors."

/-- The dependency loop of `mergePack`: for each named dependency, record the
version when none is known or the new one is `semver.gt` the recorded one,
then — against the version recorded *before* this entry — warn when the new
version does not satisfy the caret range of the earlier one. -/
def processDeps (deps : List Dep) (rs : RunState) : RunState :=
  deps.foldl
    (fun rs dep =>
      match dep.module_name with
      | none => rs
      | some name =>
        let existingVer := rs.scriptModuleVersions.lookup name
        let rs :=
          match existingVer with
          | none =>
            { rs with
              scriptModuleVersions :=
                setAssoc rs.scriptModuleVersions name dep.version }
          | some ex =>
            if semverGt dep.version ex then
              { rs with
                scriptModuleVersions :=
                  setAssoc rs.scriptModuleVersions name dep.version }
            else rs
        match existingVer with
        | some ex =>
          if !semverSatisfiesCaret dep.version ex then
            warn (incompatMsg name dep.version ex) rs
          else rs
        | none => rs)
    rs

/-- The manifest-driven steps `mergePack` runs before dispatching
sub-directories: fold the declared minimum engine version into the running
one (keep the greater under `semver.gt`), collect the script entry point
(skipping a falsy empty entry), and reconcile the declared dependencies. -/
def mergePackPre (addonName : String) (pm : PackModule) (rs : RunState) :
    RunState :=
  let rs :=
    if semverGt pm.manifest.min_engine_version rs.minEngineVersion then
      { rs with minEngineVersion := pm.manifest.min_engine_version }
    else rs
  let scriptEntry :=
    (pm.manifest.modules.find? (fun m => m.type = "script")).bind
      (fun m => m.entry)
  let rs :=
    match scriptEntry with
    | some e =>
      if e ≠ "" then
        { rs with
          scriptEntryPoints :=
            rs.scriptEntryPoints ++ [addonName ++ strDrop e 7] }
      else rs
    | none => rs
  processDeps pm.manifest.dependencies rs

/-- `mergePack`: run the manifest steps, then dispatch every sub-directory of
the module in listing order. -/
def mergePack (cfg : Config) (outBpPath outRpPath : String)
    (plugins : List PluginM) (addonName : String) (pm : PackModule)
    (cs : CoreState) (rs : RunState) :
    Except String (CoreState × RunState) :=
  pm.subDirs.foldlM
    (fun (acc : CoreState × RunState) sd =>
      let payload : Payload :=
        { addonName, packName := pm.name, subDirName := sd.name,
          fullSubDirName := pj (pj addonName pm.name) sd.name,
          subDirPath := pj (pj (pj "tmp" addonName) pm.name) sd.name }
      mergePackSubDir cfg outBpPath outRpPath plugins payload sd.data
        acc.1 acc.2)
    (cs, mergePackPre addonName pm rs)

/-- Rendering of an optional translation value in the flushed `.lang` line:
a JS template literal prints `undefined` for an undefined value. -/
def renderVal : Option String → String
  | some v => v
  | none => "undefined"

/-- The content the core `finishUp` writes for one language: one
`key=value` line, newline-terminated, per table entry, in table order. -/
def flushLang (tbl : List (String × Option String)) : String :=
  String.join (tbl.map (fun p => p.1 ++ "=" ++ renderVal p.2 ++ "\n"))

/-- `JSON.stringify` of an array of strings. -/
def serializeStringArray (xs : List String) : String :=
  "[" ++ String.intercalate "," (xs.map (fun s => "\"" ++ s ++ "\"")) ++ "]"

/-- `JSON.stringify` of the combined geometry file, the stored values being
the serialized geometry objects. -/
def serializeGeometries (gs : List (String × String)) : String :=
  "\x7b\"format_version\":\"1.12.0\",\"minecraft:geometry\":[" ++
    String.intercalate "," (gs.map (fun p => p.2)) ++ "]\x7d"

/-- `JSON.stringify` of an array of the stored aggregate objects. -/
def serializeValueArray (entries : List (String × String)) : String :=
  "[" ++ String.intercalate "," (entries.map (fun p => p.2)) ++ "]"

/-- `JSON.stringify({texture_data: ...})` over the stored entries. -/
def serializeTexData (entries : List (String × String)) : String :=
  "\x7b\"texture_data\":\x7b" ++
    String.intercalate ","
      (entries.map (fun p => "\"" ++ p.1 ++ "\":" ++ p.2)) ++
    "\x7d\x7d"

/-- The core plugin's `finishUp` hook: flush the translation tables (one
`.lang` file per language plus `languages.json`), the combined geometry file,
and the three aggregate texture files, each only when its table is nonempty;
the texture writes overwrite the files the verbatim copy placed there. -/
def coreFinishUp (outRpPath : String) (cs : CoreState) (rs : RunState) :
    RunState :=
  let rs :=
    if cs.texts ≠ [] then
      let textsDir := pj outRpPath "texts"
      let rp := cs.texts.foldl
        (fun acc p =>
          setAssoc acc (pj textsDir (p.1 ++ ".lang")) (flushLang p.2))
        rs.rpFiles
      { rs with
        rpFiles :=
          setAssoc rp (pj textsDir "languages.json")
            (serializeStringArray (cs.texts.map (fun p => p.1))) }
    else rs
  let rs :=
    if cs.geometries ≠ [] then
      { rs with
        rpFiles :=
          setAssoc rs.rpFiles (pj (pj outRpPath "models") "geometries.json")
            (serializeGeometries cs.geometries) }
    else rs
  let texturesDir := pj outRpPath "textures"
  let rs :=
    if cs.flipbookTextureData ≠ [] then
      { rs with
        rpFiles :=
          setAssoc rs.rpFiles (pj texturesDir "flipbook_textures.json")
            (serializeValueArray cs.flipbookTextureData) }
    else rs
  let rs :=
    if cs.itemTextureData ≠ [] then
      { rs with
        rpFiles :=
          setAssoc rs.rpFiles (pj texturesDir "item_texture.json")
            (serializeTexData cs.itemTextureData) }
    else rs
  if cs.terrainTextureData ≠ [] then
    { rs with
      rpFiles :=
        setAssoc rs.rpFiles (pj texturesDir "terrain_texture.json")
          (serializeTexData cs.terrainTextureData) }
  else rs

/-- The fields of a synthesized output manifest the engine computes (the
freshly generated UUIDs are omitted; the behavior↔resource cross-link
dependency is the entry with `module_name := none`). -/
structure OutManifest where
  min_engine_version : SemVer
  modules : List ModuleDecl
  dependencies : List Dep
deriving DecidableEq, Repr

/-- Everything observable about one `mergePacks` invocation: the core
plugin's module-level state as the run leaves it, the final run state (files
written included), both synthesized manifests, the caller's plugins array
after the run, the caller's config object after the run, and — as a direct
observation of the conditional `writeFileSync` for the combined script entry
— the content written to `scripts/index.js`, `none` when that write was
skipped. -/
structure MergeOutput where
  core : CoreState
  run : RunState
  bpManifest : OutManifest
  rpManifest : OutManifest
  pluginsOut : List PluginM
  configOut : Config
  scriptsIndexWrite : Option String

/-- The initial run state of one `mergePacks` invocation. -/
def initRunState : RunState :=
  { warningsCount := 0, log := [], manualMergesRequired := [],
    minEngineVersion := ⟨1, 21, 50⟩, scriptModuleVersions := [],
    scriptEntryPoints := [], bpFiles := [], rpFiles := [] }

/-- The run of all `finishUp` hooks in registration order — the core
plugin's flushes its accumulated tables, an external plugin plays its API
calls. -/
def runFinishUps (configOut : Config) (outRpPath : String)
    (pluginsOut : List PluginM) (cs : CoreState) (rs : RunState) :
    RunState :=
  pluginsOut.foldl
    (fun rs pl =>
      match pl with
      | .core => coreFinishUp outRpPath cs rs
      | .custom _ onFinishUp =>
        match onFinishUp with
        | none => rs
        | some f => (f configOut).foldl applyAction rs)
    rs

/-- Everything `mergePacks` does after the per-addon loop: the `finishUp`
hooks, the conditional combined script entry write, and the synthesis of the
two output manifests. -/
def finishRun (configOut : Config) (outBpPath outRpPath : String)
    (pluginsOut : List PluginM) (cs : CoreState) (rs : RunState) :
    MergeOutput :=
  let rs := runFinishUps configOut outRpPath pluginsOut cs rs
  let scriptsIndexWrite :=
    if rs.scriptEntryPoints ≠ [] then
      some (String.join (rs.scriptEntryPoints.map
        (fun ep => "import\"./" ++ ep ++ "\";")))
    else none
  let rs :=
    match scriptsIndexWrite with
    | some content =>
      { rs with
        bpFiles :=
          setAssoc rs.bpFiles (pj outBpPath "scripts/index.js") content }
    | none => rs
  let bpManifest : OutManifest :=
    { min_engine_version := rs.minEngineVersion,
      modules :=
        ⟨"data", none⟩ ::
          (if rs.scriptEntryPoints ≠ [] then
            [⟨"script", some "scripts/index.js"⟩]
          else []),
      dependencies :=
        ⟨none, ⟨1, 0, 0⟩⟩ ::
          rs.scriptModuleVersions.map (fun p => ⟨some p.1, p.2⟩) }
  let rpManifest : OutManifest :=
    { min_engine_version := rs.minEngineVersion,
      modules := [⟨"resources", none⟩],
      dependencies := [⟨none, ⟨1, 0, 0⟩⟩] }
  { core := cs, run := rs, bpManifest, rpManifest, pluginsOut, configOut,
    scriptsIndexWrite }

/-- `mergePacks`: append the core plugin to the caller's plugins array,
default the duplicate-warnings flag in place, process every addon's pack
modules sequentially, then finalize (`finishRun`). `cs` is the core plugin's
module-level state as the invocation finds it — the source never resets
it. -/
def mergePacksModel (cs : CoreState) (config : Config)
    (plugins : List PluginM) (addons : List Addon) :
    Except String MergeOutput := do
  let pluginsOut := plugins ++ [PluginM.core]
  let dupWarn := config.duplicateIdentifierWarnings.getD true
  let configOut :=
    { config with duplicateIdentifierWarnings := some dupWarn }
  let outBpPath := pj config.outDir "BP"
  let outRpPath := pj config.outDir "RP"
  let (cs, rs) ← addons.foldlM
    (fun (acc : CoreState × RunState) addon =>
      addon.modules.foldlM
        (fun (acc : CoreState × RunState) pm =>
          mergePack configOut outBpPath outRpPath pluginsOut addon.name pm
            acc.1 acc.2)
        acc)
    (cs, initRunState)
  return finishRun configOut outBpPath outRpPath pluginsOut cs rs

/-! ## Basic lemmas about the association-list operations -/

lemma lookup_cons_split {α : Type} (k k' : String) (v : α)
    (l : List (String × α)) :
    ((k', v) :: l).lookup k = if k = k' then some v else l.lookup k := by
  by_cases h : k = k'
  · subst h; simp [List.lookup_cons]
  · have hb : (k == k') = false := beq_eq_false_iff_ne.mpr h
    simp [List.lookup_cons, hb, h]

lemma lookup_append_of_none {α : Type} (l l' : List (String × α)) (k : String)
    (h : l.lookup k = none) : (l ++ l').lookup k = l'.lookup k := by
  induction l with
  | nil => simp
  | cons p rest ih =>
    obtain ⟨k', v⟩ := p
    rw [lookup_cons_split] at h
    rw [List.cons_append, lookup_cons_split]
    by_cases hk : k = k'
    · simp [hk] at h
    · rw [if_neg hk]
      rw [if_neg hk] at h
      exact ih h

lemma lookup_append_singleton {α : Type} (l : List (String × α))
    (k : String) (v : α) (h : l.lookup k = none) :
    (l ++ [(k, v)]).lookup k = some v := by
  rw [lookup_append_of_none l _ k h, lookup_cons_split]
  simp

lemma setAssoc_of_lookup_none {α : Type} (l : List (String × α))
    (k : String) (v : α) (h : l.lookup k = none) :
    setAssoc l k v = l ++ [(k, v)] := by
  induction l with
  | nil => simp [setAssoc]
  | cons p rest ih =>
    obtain ⟨k', v'⟩ := p
    rw [lookup_cons_split] at h
    by_cases hk : k = k'
    · simp [hk] at h
    · simp only [setAssoc, List.cons_append]
      rw [if_neg (fun hh => hk hh.symm), ih (by rwa [if_neg hk] at h)]

lemma lookup_setAssoc_self {α : Type} (l : List (String × α))
    (k : String) (v : α) : (setAssoc l k v).lookup k = some v := by
  induction l with
  | nil => simp [setAssoc, lookup_cons_split]
  | cons p rest ih =>
    obtain ⟨k', v'⟩ := p
    by_cases hk : k' = k
    · simp [setAssoc, hk, lookup_cons_split]
    · simp only [setAssoc, if_neg hk]
      rw [lookup_cons_split, if_neg (fun hh => hk hh.symm)]
      exact ih

lemma setAssoc_setAssoc_same {α : Type} (l : List (String × α))
    (k : String) (v w : α) :
    setAssoc (setAssoc l k v) k w = setAssoc l k w := by
  induction l with
  | nil => simp [setAssoc]
  | cons p rest ih =>
    obtain ⟨k', v'⟩ := p
    by_cases hk : k' = k
    · simp [setAssoc, hk]
    · simp [setAssoc, hk, ih]

lemma setAssoc_append_self {α : Type} (l : List (String × α))
    (k : String) (v w : α) (h : l.lookup k = none) :
    setAssoc (l ++ [(k, v)]) k w = l ++ [(k, w)] := by
  rw [← setAssoc_of_lookup_none l k v h, setAssoc_setAssoc_same,
    setAssoc_of_lookup_none l k w h]

lemma exceptBind_ok {ε α β : Type} (v : α) (f : α → Except ε β) :
    (Except.ok v >>= f) = f v := rfl

lemma exceptBind_error {ε α β : Type} (e : ε) (f : α → Except ε β) :
    ((Except.error e : Except ε α) >>= f) = Except.error e := rfl

/-! ## C4: dependency version reconciliation -/

/-- **C4.** For a dependency module declared first with version `1.2.0` and
later with `1.3.0`, the recorded version ends up `1.3.0` and no
incompatibility warning is emitted (the run state is unchanged except the
version table); declared first with `1.2.0` and later with `2.0.0`, the
recorded version ends up `2.0.0` and exactly one incompatibility warning
naming both versions is appended to the log and counted in the run-wide
warning total. -/
theorem dependency_version_reconciliation (m : String) (rs : RunState)
    (h : rs.scriptModuleVersions.lookup m = none) :
    processDeps [⟨some m, ⟨1, 2, 0⟩⟩, ⟨some m, ⟨1, 3, 0⟩⟩] rs =
      { rs with
        scriptModuleVersions :=
          rs.scriptModuleVersions ++ [(m, ⟨1, 3, 0⟩)] } ∧
    processDeps [⟨some m, ⟨1, 2, 0⟩⟩, ⟨some m, ⟨2, 0, 0⟩⟩] rs =
      { rs with
        scriptModuleVersions := rs.scriptModuleVersions ++ [(m, ⟨2, 0, 0⟩)],
        warningsCount := rs.warningsCount + 1,
        log := rs.log ++ [incompatMsg m ⟨2, 0, 0⟩ ⟨1, 2, 0⟩] } := by
  have g1 : semverGt ⟨1, 3, 0⟩ ⟨1, 2, 0⟩ = true := by decide
  have g2 : semverSatisfiesCaret ⟨1, 3, 0⟩ ⟨1, 2, 0⟩ = true := by decide
  have g3 : semverGt ⟨2, 0, 0⟩ ⟨1, 2, 0⟩ = true := by decide
  have g4 : semverSatisfiesCaret ⟨2, 0, 0⟩ ⟨1, 2, 0⟩ = false := by decide
  constructor
  · simp only [processDeps, List.foldl_cons, List.foldl_nil, h,
      setAssoc_of_lookup_none _ _ _ h, lookup_append_singleton _ _ _ h,
      g1, g2, if_true, Bool.not_true, Bool.false_eq_true,
      if_false, setAssoc_append_self _ _ _ _ h]
  · simp only [processDeps, List.foldl_cons, List.foldl_nil, h,
      setAssoc_of_lookup_none _ _ _ h, lookup_append_singleton _ _ _ h,
      g3, g4, if_true, Bool.not_false, if_false,
      setAssoc_append_self _ _ _ _ h, warn]

/-! ## C5: sub-directory dispatch over the plugin list -/

/-- An external plugin instrumented to record its invocation: its
`mergeSubDir` hook logs one `tick` through the API and returns claim status
`b`. -/
def tickPlugin (b : Bool) : PluginM :=
  PluginM.custom (some (fun _ _ => (b, [ApiAction.infoA "tick"]))) none

lemma foldlM_tickPlugins (cfg : Config) (outBp outRp : String) (p : Payload)
    (data : SubDirData) (bs : List Bool) (acc : Bool × CoreState × RunState) :
    List.foldlM (pluginStep cfg outBp outRp p data) acc (bs.map tickPlugin) =
      Except.ok (acc.1 || bs.any id, acc.2.1,
        { acc.2.2 with
          log := acc.2.2.log ++ List.replicate bs.length "tick" }) := by
  induction bs generalizing acc with
  | nil =>
    simp only [List.any_nil, Bool.or_false, List.length_nil,
      List.replicate_zero, List.append_nil, List.map_nil]
    rfl
  | cons b rest ih =>
    obtain ⟨m0, cs0, rs0⟩ := acc
    simp only [List.map_cons, List.foldlM_cons, pluginStep, tickPlugin,
      List.foldl_cons, List.foldl_nil, applyAction, info, exceptBind_ok,
      pure_bind]
    rw [ih]
    simp [Bool.or_assoc, List.replicate_succ, List.append_assoc]

/-- **C5.** For a dispatched sub-directory, every registered strategy's
`mergeSubDir` hook is invoked (each of the `bs.length` instrumented plugins
logs its tick, even after an earlier one claims), the sub-directory counts as
claimed exactly when at least one hook returned `true`, and when none did the
orchestrator records exactly one manual-merge requirement for the
sub-directory with reason "Subdirectory could not be merged.", counted as one
warning. -/
theorem subdir_dispatch_invokes_all_and_fallback (bs : List Bool)
    (cfg : Config) (outBp outRp : String) (p : Payload) (data : SubDirData)
    (cs : CoreState) (rs : RunState) :
    mergePackSubDir cfg outBp outRp (bs.map tickPlugin) p data cs rs =
      Except.ok (cs,
        if bs.any id then
          { rs with log := rs.log ++ List.replicate bs.length "tick" }
        else
          { rs with
            warningsCount := rs.warningsCount + 1,
            manualMergesRequired := rs.manualMergesRequired ++
              ["'" ++ p.fullSubDirName ++
                "' - Subdirectory could not be merged."],
            log := rs.log ++ List.replicate bs.length "tick" ++
              ["Manual merge required for " ++ "'" ++ p.fullSubDirName ++
                "' - Subdirectory could not be merged."] }) := by
  simp only [mergePackSubDir, foldlM_tickPlugins, Bool.false_or,
    exceptBind_ok, pure_bind]
  by_cases hb : bs.any id
  · simp only [hb, reduceIte]
    rfl
  · have fuse : ∀ x : String,
        "Manual merge required for " ++ ("'" ++ x) =
          "Manual merge required for '" ++ x := by
      intro x
      rw [← String.append_assoc]
      rfl
    simp only [hb, Bool.false_eq_true, reduceIte, requireManualMerge, warn]
    simp only [String.append_assoc, fuse]
    rfl

/-- Witness for `dependency_version_reconciliation` at a concrete module name
and the empty version table. -/
theorem dependency_version_reconciliation_witness :
    processDeps [⟨some "mc-server", ⟨1, 2, 0⟩⟩, ⟨some "mc-server", ⟨1, 3, 0⟩⟩]
        initRunState =
      { initRunState with
        scriptModuleVersions := [("mc-server", ⟨1, 3, 0⟩)] } ∧
    processDeps [⟨some "mc-server", ⟨1, 2, 0⟩⟩, ⟨some "mc-server", ⟨2, 0, 0⟩⟩]
        initRunState =
      { initRunState with
        scriptModuleVersions := [("mc-server", ⟨2, 0, 0⟩)],
        warningsCount := 1,
        log := [incompatMsg "mc-server" ⟨2, 0, 0⟩ ⟨1, 2, 0⟩] } := by
  have h := dependency_version_reconciliation "mc-server" initRunState
    (by simp [initRunState])
  simpa [initRunState] using h

/-! ## C1: identifier-keyed first-write-wins across packages -/

/-- **C1.** For two content files of the same identifier-keyed category
declaring the same identifier `i` — `fA` processed with the earlier package,
`fB` with the later one — the earlier file is copied into the output (under
`<outBP>/<subDir>/<addonA>/`), the registry maps `i` to the earlier file's
path, and the later call copies nothing, leaves the registry unchanged, and,
exactly when duplicate warnings are enabled, emits exactly one duplicate
warning naming the later file's path and the earlier (winning) file's path. -/
theorem duplicate_identifier_first_write_wins
    (dupWarn : Bool)
    (outBp subDirName addonA addonB fullSubA fullSubB : String)
    (ids : List (String × String)) (rs rs1 : RunState)
    (fA fB : ContentFile) (kA kB i : String)
    (hA : fA.rootEntries.find? (fun q => strStartsWith q.1 "minecraft:") =
      some (kA, i))
    (hB : fB.rootEntries.find? (fun q => strStartsWith q.1 "minecraft:") =
      some (kB, i))
    (hfresh : ids.lookup i = none) :
    mergeWithDuplicateIdCheck dupWarn outBp subDirName addonA fullSubA [fA]
        ids rs =
      Except.ok (ids ++ [(i, pj fullSubA fA.name)],
        { rs with
          bpFiles := setAssoc rs.bpFiles
            (pj (pj (pj outBp subDirName) addonA) fA.name) fA.raw }) ∧
    mergeWithDuplicateIdCheck dupWarn outBp subDirName addonB fullSubB [fB]
        (ids ++ [(i, pj fullSubA fA.name)]) rs1 =
      Except.ok (ids ++ [(i, pj fullSubA fA.name)],
        if dupWarn then
          warn (dupMsgWithOrig i (pj fullSubB fB.name) (pj fullSubA fA.name))
            rs1
        else rs1) := by
  constructor
  · simp only [mergeWithDuplicateIdCheck, List.foldlM_cons, List.foldlM_nil,
      mergeIdFile, hA, setOrDuplicateIdWarning, hfresh, exceptBind_ok,
      pure_bind, reduceIte]
    rfl
  · simp only [mergeWithDuplicateIdCheck, List.foldlM_cons, List.foldlM_nil,
      mergeIdFile, hB, setOrDuplicateIdWarning,
      lookup_append_singleton _ _ _ hfresh, exceptBind_ok, pure_bind,
      reduceIte]
    rfl

/-- Fixture: the earlier package's `blocks/stone.json`. -/
def fileStoneA : ContentFile :=
  ⟨"", "stone.json", [("minecraft:block", "my:stone")], "rawA"⟩

/-- Fixture: the later package's `blocks/stone.json`, same identifier. -/
def fileStoneB : ContentFile :=
  ⟨"", "stone.json", [("minecraft:block", "my:stone")], "rawB"⟩

/-- Witness for `duplicate_identifier_first_write_wins` at the spec's own
scenario: both packages define `minecraft:block` `my:stone` at
`blocks/stone.json`, package `A` processed before `B`. -/
theorem duplicate_identifier_first_write_wins_witness :
    mergeWithDuplicateIdCheck true "out/BP" "blocks" "A" "A/bp/blocks"
        [fileStoneA] [] initRunState =
      Except.ok ([("my:stone", "A/bp/blocks/stone.json")],
        { initRunState with
          bpFiles := [("out/BP/blocks/A/stone.json", "rawA")] }) ∧
    mergeWithDuplicateIdCheck true "out/BP" "blocks" "B" "B/bp/blocks"
        [fileStoneB] [("my:stone", "A/bp/blocks/stone.json")] initRunState =
      Except.ok ([("my:stone", "A/bp/blocks/stone.json")],
        { initRunState with
          warningsCount := 1,
          log := [dupMsgWithOrig "my:stone" "B/bp/blocks/stone.json"
            "A/bp/blocks/stone.json"] }) := by
  have h := duplicate_identifier_first_write_wins true "out/BP" "blocks"
    "A" "B" "A/bp/blocks" "B/bp/blocks" [] initRunState initRunState
    fileStoneA fileStoneB "minecraft:block" "minecraft:block" "my:stone"
    (by rfl) (by rfl) (by rfl)
  simpa [fileStoneA, fileStoneB, pj, initRunState, setAssoc, warn] using h

/-! ## C10: nested accepted files are flattened onto the same destination -/

/-- **C10.** Two accepted files of one identifier-keyed sub-directory tree
with the same base name `n` but different nested directories (`fA.relDir ≠
fB.relDir`) are both copied to the one destination
`<outBP>/<subDirName>/<addonName>/<n>` — the nested directory is not part of
the destination — so the later copy overwrites the earlier one: the
destination ends up holding `fB`'s content. -/
theorem nested_files_flattened_same_destination
    (dupWarn : Bool) (outBp subDirName addonName fullSub : String)
    (ids : List (String × String)) (rs : RunState)
    (fA fB : ContentFile) (kA kB iA iB n : String)
    (hnameA : fA.name = n) (hnameB : fB.name = n)
    (_hdepth : fA.relDir ≠ fB.relDir)
    (hA : fA.rootEntries.find? (fun q => strStartsWith q.1 "minecraft:") =
      some (kA, iA))
    (hB : fB.rootEntries.find? (fun q => strStartsWith q.1 "minecraft:") =
      some (kB, iB))
    (hne : iA ≠ iB)
    (hfreshA : ids.lookup iA = none)
    (hfreshB : ids.lookup iB = none) :
    mergeWithDuplicateIdCheck dupWarn outBp subDirName addonName fullSub
        [fA, fB] ids rs =
      Except.ok
        (ids ++ [(iA, pj fullSub n), (iB, pj fullSub n)],
          { rs with
            bpFiles :=
              setAssoc
                (setAssoc rs.bpFiles (pj (pj (pj outBp subDirName) addonName) n)
                  fA.raw)
                (pj (pj (pj outBp subDirName) addonName) n) fB.raw }) ∧
    (setAssoc
        (setAssoc rs.bpFiles (pj (pj (pj outBp subDirName) addonName) n)
          fA.raw)
        (pj (pj (pj outBp subDirName) addonName) n) fB.raw).lookup
      (pj (pj (pj outBp subDirName) addonName) n) = some fB.raw := by
  have hlB : (ids ++ [(iA, pj fullSub n)]).lookup iB = none := by
    rw [lookup_append_of_none _ _ _ hfreshB, lookup_cons_split,
      if_neg (fun hh => hne hh.symm)]
    rfl
  refine ⟨?_, lookup_setAssoc_self _ _ _⟩
  simp only [mergeWithDuplicateIdCheck, List.foldlM_cons, List.foldlM_nil,
    mergeIdFile, hA, hB, hnameA, hnameB, setOrDuplicateIdWarning, hfreshA,
    hlB, exceptBind_ok, pure_bind, reduceIte, List.append_assoc,
    List.cons_append, List.nil_append]
  rfl

/-- Fixture: an accepted file at nesting depth 1 (`deep/stone.json`). -/
def fileStoneDeep : ContentFile :=
  ⟨"deep", "stone.json", [("minecraft:block", "my:granite")], "rawDeep"⟩

/-- Witness for `nested_files_flattened_same_destination`: `stone.json` at
the sub-directory root and `deep/stone.json` carry distinct identifiers, yet
both land on `out/BP/blocks/A/stone.json`, which ends up with the later
file's content. -/
theorem nested_files_flattened_same_destination_witness :
    mergeWithDuplicateIdCheck true "out/BP" "blocks" "A" "A/bp/blocks"
        [fileStoneA, fileStoneDeep] [] initRunState =
      Except.ok
        ([("my:stone", "A/bp/blocks/stone.json"),
          ("my:granite", "A/bp/blocks/stone.json")],
          { initRunState with
            bpFiles := [("out/BP/blocks/A/stone.json", "rawDeep")] }) ∧
    ([("out/BP/blocks/A/stone.json", "rawDeep")] :
        List (String × String)).lookup "out/BP/blocks/A/stone.json" =
      some "rawDeep" := by
  have h := nested_files_flattened_same_destination true "out/BP" "blocks"
    "A" "A/bp/blocks" [] initRunState fileStoneA fileStoneDeep
    "minecraft:block" "minecraft:block" "my:stone" "my:granite" "stone.json"
    (by rfl) (by rfl) (by decide) (by rfl) (by rfl) (by decide) (by rfl)
    (by rfl)
  simpa [fileStoneA, fileStoneDeep, pj, initRunState, setAssoc] using h

/-! ## C6: translation merge -/

lemma splitOnCharAux_no_sep (c : Char) (xs acc : List Char) (h : c ∉ xs) :
    splitOnCharAux c xs acc = [⟨acc.reverse ++ xs⟩] := by
  induction xs generalizing acc with
  | nil => simp [splitOnCharAux]
  | cons x xs ih =>
    have hx : ¬x = c := fun hh => h (hh ▸ List.mem_cons_self x xs)
    simp only [splitOnCharAux, if_neg hx,
      ih _ (fun hm => h (List.mem_cons_of_mem x hm)), List.reverse_cons,
      List.append_assoc, List.cons_append, List.nil_append]

lemma splitOnChar_no_sep (c : Char) (s : String) (h : c ∉ s.data) :
    splitOnChar c s = [s] := by
  rw [splitOnChar, splitOnCharAux_no_sep c s.data [] h]
  rfl

lemma strJoin_foldl (l : List String) (init : String) :
    l.foldl (fun r s => r ++ s) init = init ++ String.join l := by
  induction l generalizing init with
  | nil => simp [String.join]
  | cons s l ih =>
    rw [List.foldl_cons, ih]
    have hj : String.join (s :: l) = s ++ String.join l := by
      show List.foldl (fun r s => r ++ s) "" (s :: l) = _
      rw [List.foldl_cons, ih, String.empty_append]
    rw [hj, String.append_assoc]

lemma strJoin_append (l1 l2 : List String) :
    String.join (l1 ++ l2) = String.join l1 ++ String.join l2 := by
  show List.foldl _ "" (l1 ++ l2) = _
  rw [List.foldl_append, strJoin_foldl l2 (List.foldl _ "" l1)]
  rfl

lemma flushLang_append_entry (tbl : List (String × Option String))
    (k v : String) :
    flushLang (tbl ++ [(k, some v)]) =
      flushLang tbl ++ (k ++ "=" ++ v ++ "\n") := by
  rw [flushLang, List.map_append, strJoin_append]
  simp [flushLang, String.join, renderVal, String.append_empty]

/-- **C6.** Translation merge: (1) a line that is blank after trimming is
skipped; (2) a trimmed line starting with `##` is skipped; (3) a line whose
key is `pack.name` or `pack.description` is always dropped; (4) for a `.lang`
file of language `lang` whose single line binds `k` to `v1`, processed before
a second `.lang` file of the same language binding `k` to `v2`, the
translation table keeps `k ↦ v1`, the second file's binding is rejected (with
a duplicate warning exactly when enabled), and the flushed per-language
`.lang` output ends with the line `k=v1` from the first-processed file. -/
theorem texts_first_write_wins
    (dupWarn : Bool) (fullSubA fullSubB lang line1 line2 k v1 v2 : String)
    (t : List (String × List (String × Option String)))
    (rs rs1 : RunState)
    (h1 : strTrim line1 = line1) (h1e : line1 ≠ "")
    (h1c : strStartsWith line1 "##" = false)
    (h1s : splitFirstEq line1 = (k, some v1))
    (h1n : Char.ofNat 10 ∉ line1.data)
    (h2 : strTrim line2 = line2) (h2e : line2 ≠ "")
    (h2c : strStartsWith line2 "##" = false)
    (h2s : splitFirstEq line2 = (k, some v2))
    (h2n : Char.ofNat 10 ∉ line2.data)
    (hk1 : k ≠ "pack.name") (hk2 : k ≠ "pack.description")
    (hfresh : ((t.lookup lang).getD []).lookup k = none)
    (hE : strEndsWith (lang ++ ".lang") ".lang" = true)
    (hD : strDropRight (lang ++ ".lang") 5 = lang)
    (hNL : lang ++ ".lang" ≠ "languages.json") :
    (∀ (d : Bool) (f : String)
        (acc : List (String × Option String) × RunState) (lineRaw : String),
      strTrim lineRaw = "" → processLangLine d f acc lineRaw = acc) ∧
    (∀ (d : Bool) (f : String)
        (acc : List (String × Option String) × RunState) (lineRaw : String),
      strStartsWith (strTrim lineRaw) "##" = true →
      processLangLine d f acc lineRaw = acc) ∧
    (∀ (d : Bool) (f : String)
        (acc : List (String × Option String) × RunState) (lineRaw : String)
        (key : String) (value : Option String),
      splitFirstEq (strTrim lineRaw) = (key, value) →
      key = "pack.name" ∨ key = "pack.description" →
      processLangLine d f acc lineRaw = acc) ∧
    mergeTexts dupWarn fullSubA [⟨lang ++ ".lang", false, line1⟩] t rs =
      (setAssoc t lang ((t.lookup lang).getD [] ++ [(k, some v1)]), rs) ∧
    mergeTexts dupWarn fullSubB [⟨lang ++ ".lang", false, line2⟩]
        (setAssoc t lang ((t.lookup lang).getD [] ++ [(k, some v1)])) rs1 =
      (setAssoc t lang ((t.lookup lang).getD [] ++ [(k, some v1)]),
        if dupWarn then
          warn (dupMsgNoOrig k (pj fullSubB (lang ++ ".lang"))) rs1
        else rs1) ∧
    ((t.lookup lang).getD [] ++ [(k, some v1)]).lookup k = some (some v1) ∧
    flushLang ((t.lookup lang).getD [] ++ [(k, some v1)]) =
      flushLang ((t.lookup lang).getD []) ++ (k ++ "=" ++ v1 ++ "\n") := by
  refine ⟨?_, ?_, ?_, ?_, ?_, ?_, ?_⟩
  · intro d f acc lineRaw hb
    simp [processLangLine, hb]
  · intro d f acc lineRaw hc
    simp [processLangLine, hc]
  · intro d f acc lineRaw key value hs hpack
    by_cases hb : strTrim lineRaw = "" ∨ strStartsWith (strTrim lineRaw) "##"
    · simp [processLangLine, hb]
    · simp [processLangLine, hb, hs, hpack]
  · simp only [mergeTexts, List.foldl_cons, List.foldl_nil,
      Bool.false_eq_true, reduceIte, hNL, hE, Bool.not_true, hD,
      splitOnChar_no_sep _ _ h1n, processLangLine, h1, h1e, h1c,
      false_or, h1s, setOrDuplicateIdWarning, hfresh, hk1, hk2, or_self,
      if_false]
  · have hlook :
        ((setAssoc t lang ((t.lookup lang).getD [] ++ [(k, some v1)])).lookup
          lang).getD [] = (t.lookup lang).getD [] ++ [(k, some v1)] := by
      rw [lookup_setAssoc_self]
      rfl
    simp only [mergeTexts, List.foldl_cons, List.foldl_nil,
      Bool.false_eq_true, reduceIte, hNL, hE, Bool.not_true, hD,
      splitOnChar_no_sep _ _ h2n, processLangLine, h2, h2e, h2c,
      false_or, h2s, setOrDuplicateIdWarning, hlook,
      lookup_append_singleton _ _ _ hfresh, hk1, hk2, or_self, if_false,
      setAssoc_setAssoc_same]
  · exact lookup_append_singleton _ _ _ hfresh
  · exact flushLang_append_entry _ _ _

/-- Witness for `texts_first_write_wins`: two packages both provide
`en_US.lang` binding `greeting`, the first to `Hello`, the second to `Howdy`;
the table and the flushed file keep `Hello`. -/
theorem texts_first_write_wins_witness :
    mergeTexts true "A/rp/texts" [⟨"en_US.lang", false, "greeting=Hello"⟩]
        [] initRunState =
      ([("en_US", [("greeting", some "Hello")])], initRunState) ∧
    mergeTexts true "B/rp/texts" [⟨"en_US.lang", false, "greeting=Howdy"⟩]
        [("en_US", [("greeting", some "Hello")])] initRunState =
      ([("en_US", [("greeting", some "Hello")])],
        warn (dupMsgNoOrig "greeting" "B/rp/texts/en_US.lang") initRunState) ∧
    flushLang [("greeting", some "Hello")] = "greeting=Hello\n" := by
  have h := texts_first_write_wins true "A/rp/texts" "B/rp/texts" "en_US"
    "greeting=Hello" "greeting=Howdy" "greeting" "Hello" "Howdy" []
    initRunState initRunState (by rfl) (by decide) (by rfl) (by rfl)
    (by decide) (by rfl) (by decide) (by rfl) (by rfl) (by decide)
    (by decide) (by decide) (by rfl) (by rfl) (by rfl) (by decide)
  obtain ⟨-, -, -, c4, c5, -, c7⟩ := h
  refine ⟨?_, ?_, ?_⟩
  · simpa [setAssoc] using c4
  · simpa [setAssoc, pj] using c5
  · simpa using c7

/-! ## Generic fold invariants and simulation infrastructure -/

lemma foldl_inv {σ α : Type} (P : σ → Prop) (f : σ → α → σ)
    (hf : ∀ s a, P s → P (f s a)) :
    ∀ (l : List α) (s : σ), P s → P (l.foldl f s) := by
  intro l
  induction l with
  | nil => intro s hs; exact hs
  | cons a l ih =>
    intro s hs
    rw [List.foldl_cons]
    exact ih _ (hf s a hs)

lemma foldlM_except_inv {σ α : Type} (P : σ → Prop)
    (f : σ → α → Except String σ)
    (hf : ∀ s a s', f s a = .ok s' → P s → P s') :
    ∀ (l : List α) (s s' : σ), List.foldlM f s l = .ok s' → P s → P s' := by
  intro l
  induction l with
  | nil =>
    intro s s' h hs
    cases h
    exact hs
  | cons a l ih =>
    intro s s' h hs
    rw [List.foldlM_cons] at h
    cases hfa : f s a with
    | error e => rw [hfa] at h; exact absurd h (by simp [exceptBind_error])
    | ok mid =>
      rw [hfa, exceptBind_ok] at h
      exact ih mid s' h (hf s a mid hfa hs)

/-- Relate two `Except` computations: equal errors, or related successes. -/
def ExceptRel {σ τ : Type} (R : σ → τ → Prop) :
    Except String σ → Except String τ → Prop
  | .error e, .error f => e = f
  | .ok s, .ok t => R s t
  | _, _ => False

lemma foldlM_except_rel {σ τ α : Type} (R : σ → τ → Prop)
    (f : σ → α → Except String σ) (g : τ → α → Except String τ)
    (hstep : ∀ s t a, R s t → ExceptRel R (f s a) (g t a)) :
    ∀ (l : List α) (s : σ) (t : τ), R s t →
      ExceptRel R (List.foldlM f s l) (List.foldlM g t l) := by
  intro l
  induction l with
  | nil => intro s t hst; exact hst
  | cons a l ih =>
    intro s t hst
    rw [List.foldlM_cons, List.foldlM_cons]
    have h := hstep s t a hst
    cases hfa : f s a with
    | error e =>
      rw [hfa] at h
      cases hga : g t a with
      | error e' =>
        rw [hga] at h
        cases h
        simp [exceptBind_error, ExceptRel]
      | ok t' => rw [hga] at h; exact absurd h (by simp [ExceptRel])
    | ok s' =>
      rw [hfa] at h
      cases hga : g t a with
      | error e' => rw [hga] at h; exact absurd h (by simp [ExceptRel])
      | ok t' =>
        rw [hga] at h
        rw [exceptBind_ok, exceptBind_ok]
        exact ih s' t' h

/-! ## Ordering facts about `semverGt` -/

lemma semverGt_true_iff (a b : SemVer) :
    semverGt a b = true ↔
      b.major < a.major ∨ (a.major = b.major ∧
        (b.minor < a.minor ∨ (a.minor = b.minor ∧ b.patch < a.patch))) := by
  simp [semverGt]

lemma semverGt_false_iff (a b : SemVer) :
    semverGt a b = false ↔
      ¬(b.major < a.major ∨ (a.major = b.major ∧
        (b.minor < a.minor ∨ (a.minor = b.minor ∧ b.patch < a.patch)))) := by
  simp [semverGt]

lemma semverGt_irrefl (a : SemVer) : semverGt a a = false := by
  rw [semverGt_false_iff]
  omega

lemma semverLe_trans {a b c : SemVer} (h1 : semverGt a b = false)
    (h2 : semverGt b c = false) : semverGt a c = false := by
  rw [semverGt_false_iff] at *
  omega

lemma semverGt_asymm {a b : SemVer} (h : semverGt a b = true) :
    semverGt b a = false := by
  rw [semverGt_true_iff] at h
  rw [semverGt_false_iff]
  omega

/-- One step of the running-minimum fold of `mergePack`: keep the greater
(under `semver.gt`) of the running value and the declared one. -/
def minEngineStep (cur v : SemVer) : SemVer :=
  if semverGt v cur then v else cur

lemma minEngineStep_ge_cur (cur v : SemVer) :
    semverGt cur (minEngineStep cur v) = false := by
  rw [minEngineStep]
  by_cases h : semverGt v cur
  · rw [if_pos h]
    exact semverGt_asymm h
  · rw [if_neg h]
    exact semverGt_irrefl cur

lemma minEngineStep_ge_v (cur v : SemVer) :
    semverGt v (minEngineStep cur v) = false := by
  rw [minEngineStep]
  by_cases h : semverGt v cur
  · rw [if_pos h]
    exact semverGt_irrefl v
  · rw [if_neg h]
    exact Bool.not_eq_true _ ▸ h

lemma foldl_minEngineStep_ge_init (l : List SemVer) (init : SemVer) :
    semverGt init (l.foldl minEngineStep init) = false := by
  induction l generalizing init with
  | nil => exact semverGt_irrefl init
  | cons v l ih =>
    rw [List.foldl_cons]
    exact semverLe_trans (minEngineStep_ge_cur init v) (ih _)

lemma foldl_minEngineStep_ub (l : List SemVer) (init : SemVer) :
    ∀ v ∈ l, semverGt v (l.foldl minEngineStep init) = false := by
  induction l generalizing init with
  | nil => intro v hv; cases hv
  | cons w l ih =>
    intro v hv
    rw [List.foldl_cons]
    rcases List.mem_cons.mp hv with hv | hv
    · subst hv
      exact semverLe_trans (minEngineStep_ge_v init v)
        (foldl_minEngineStep_ge_init l _)
    · exact ih _ v hv

lemma foldl_minEngineStep_mem (l : List SemVer) (init : SemVer) :
    l.foldl minEngineStep init = init ∨ l.foldl minEngineStep init ∈ l := by
  induction l generalizing init with
  | nil => exact Or.inl rfl
  | cons v l ih =>
    rw [List.foldl_cons]
    rcases ih (minEngineStep init v) with h | h
    · rw [h, minEngineStep]
      by_cases hc : semverGt v init
      · rw [if_pos hc]
        exact Or.inr (List.mem_cons_self v l)
      · rw [if_neg hc]
        exact Or.inl rfl
    · exact Or.inr (List.mem_cons_of_mem v h)

/-! ## The sub-directory strategies never touch the version state -/

/-- The version-reconciler slice of the run state: running minimum engine
version, dependency version table, and collected script entry points. -/
def RunState.vst (rs : RunState) :
    SemVer × List (String × SemVer) × List String :=
  (rs.minEngineVersion, rs.scriptModuleVersions, rs.scriptEntryPoints)

lemma vst_warn (m : String) (rs : RunState) : (warn m rs).vst = rs.vst := rfl

lemma vst_info (m : String) (rs : RunState) : (info m rs).vst = rs.vst := rfl

lemma vst_requireManualMerge (f r : String) (rs : RunState) :
    (requireManualMerge f r rs).vst = rs.vst := rfl

lemma vst_applyAction (rs : RunState) (a : ApiAction) :
    (applyAction rs a).vst = rs.vst := by
  cases a <;> rfl

lemma vst_actions (acts : List ApiAction) (rs : RunState) :
    (acts.foldl applyAction rs).vst = rs.vst := by
  have := foldl_inv (fun s : RunState => s.vst = rs.vst) applyAction
    (fun s a hs => (vst_applyAction s a).trans hs) acts rs rfl
  exact this

lemma vst_setOrDuplicateIdWarning {α : Type} (d : Bool) (f : String)
    (m : List (String × α)) (k : String) (v : α) (o : Option String)
    (rs : RunState) :
    ((setOrDuplicateIdWarning d f m k v o rs).2.2).vst = rs.vst := by
  cases h : m.lookup k with
  | none => simp [setOrDuplicateIdWarning, h]
  | some w =>
    cases d <;> simp [setOrDuplicateIdWarning, h, vst_warn]

lemma vst_mergeIdFile (d : Bool) (dd fsn : String)
    (ids : List (String × String)) (rs : RunState) (file : ContentFile)
    (ids' : List (String × String)) (rs' : RunState)
    (h : mergeIdFile d dd fsn ids rs file = .ok (ids', rs')) :
    rs'.vst = rs.vst := by
  rw [mergeIdFile] at h
  cases hf : file.rootEntries.find? (fun p => strStartsWith p.1 "minecraft:")
      with
  | none =>
    rw [hf] at h
    exact absurd h (by simp)
  | some e =>
    rw [hf] at h
    simp only [] at h
    rcases hs : setOrDuplicateIdWarning d (pj fsn file.name) ids e.2
      (pj fsn file.name) (ids.lookup e.2) rs with ⟨m', acc, rs''⟩
    have hvst : rs''.vst = rs.vst := by
      have := vst_setOrDuplicateIdWarning d (pj fsn file.name) ids e.2
        (pj fsn file.name) (ids.lookup e.2) rs
      rw [hs] at this
      exact this
    rw [hs] at h
    cases acc with
    | true =>
      simp only [reduceIte] at h
      cases h
      exact hvst
    | false =>
      simp only [Bool.false_eq_true, reduceIte] at h
      cases h
      exact hvst

lemma vst_mergeWithDuplicateIdCheck (d : Bool) (bp sdn an fsn : String)
    (files : List ContentFile) (ids : List (String × String))
    (rs : RunState) (ids' : List (String × String)) (rs' : RunState)
    (h : mergeWithDuplicateIdCheck d bp sdn an fsn files ids rs =
      .ok (ids', rs')) :
    rs'.vst = rs.vst := by
  rw [mergeWithDuplicateIdCheck] at h
  have := foldlM_except_inv
    (fun s : List (String × String) × RunState => s.2.vst = rs.vst)
    (fun acc file =>
      mergeIdFile d (pj (pj bp sdn) an) fsn acc.1 acc.2 file)
    (fun s a s' hstep hP => by
      rcases s' with ⟨i2, r2⟩
      exact (vst_mergeIdFile _ _ _ _ _ _ _ _ hstep).trans hP)
    files (ids, rs) (ids', rs') h rfl
  exact this

lemma vst_processLangLine (d : Bool) (f : String)
    (acc : List (String × Option String) × RunState) (lineRaw : String) :
    ((processLangLine d f acc lineRaw).2).vst = acc.2.vst := by
  rw [processLangLine]
  by_cases hb : strTrim lineRaw = "" ∨ strStartsWith (strTrim lineRaw) "##"
  · rw [if_pos hb]
  · rw [if_neg hb]
    rcases hsp : splitFirstEq (strTrim lineRaw) with ⟨key, value⟩
    simp only []
    by_cases hk : key = "pack.name" ∨ key = "pack.description"
    · rw [if_pos hk]
    · rw [if_neg hk]
      exact vst_setOrDuplicateIdWarning d f acc.1 key value none acc.2

lemma vst_mergeTexts (d : Bool) (fsn : String) (files : List TextFile)
    (t : List (String × List (String × Option String))) (rs : RunState) :
    ((mergeTexts d fsn files t rs).2).vst = rs.vst := by
  rw [mergeTexts]
  refine foldl_inv
    (fun s : List (String × List (String × Option String)) × RunState =>
      s.2.vst = rs.vst) _ ?_ files (t, rs) rfl
  intro s file hs
  simp only []
  by_cases h1 : file.isDir
  · simp only [h1, reduceIte, vst_requireManualMerge]
    exact hs
  · simp only [h1, Bool.false_eq_true, reduceIte]
    by_cases h2 : file.name = "languages.json"
    · simp only [h2, reduceIte]
      exact hs
    · simp only [h2, reduceIte]
      by_cases h3 : strEndsWith file.name ".lang"
      · simp only [h3, Bool.not_true, Bool.false_eq_true, reduceIte]
        have := foldl_inv
          (fun q : List (String × Option String) × RunState =>
            q.2.vst = rs.vst)
          (processLangLine d (pj fsn file.name)) (fun q a hq =>
            (vst_processLangLine d (pj fsn file.name) q a).trans hq)
          (splitOnChar (Char.ofNat 10) file.content)
          ((s.1.lookup (strDropRight file.name 5)).getD [], s.2) hs
        exact this
      · simp only [h3, Bool.not_false, reduceIte, vst_requireManualMerge]
        exact hs

lemma vst_mergeModels (d : Bool) (fsn : String) (files : List ModelFile)
    (geoms : List (String × String)) (rs : RunState) :
    ((mergeModels d fsn files geoms rs).2).vst = rs.vst := by
  rw [mergeModels]
  refine foldl_inv
    (fun s : List (String × String) × RunState => s.2.vst = rs.vst) _ ?_
    files (geoms, rs) rfl
  intro s file hs
  simp only []
  by_cases h1 : file.format_version = "1.12.0"
  · rw [if_neg (fun hh => hh h1)]
    refine foldl_inv
      (fun q : List (String × String) × RunState => q.2.vst = rs.vst) _ ?_
      file.geoms s hs
    intro q g hq
    simp only []
    exact (vst_setOrDuplicateIdWarning d (pj fsn file.name) q.1 g.1 g.2
      none q.2).trans hq
  · rw [if_pos h1]
    simp only [vst_requireManualMerge]
    exact hs

lemma vst_mergeTextureEntries (d : Bool) (fn : String)
    (entries : List (String × String)) (tbl : List (String × String))
    (rs : RunState) :
    ((mergeTextureEntries d fn entries tbl rs).2).vst = rs.vst := by
  rw [mergeTextureEntries]
  refine foldl_inv
    (fun q : List (String × String) × RunState => q.2.vst = rs.vst) _ ?_
    entries (tbl, rs) rfl
  intro q e hq
  simp only []
  exact (vst_setOrDuplicateIdWarning d fn q.1 e.1 e.2 none q.2).trans hq

lemma mergeTextureEntries_minEngine (d : Bool) (fn : String)
    (entries tbl : List (String × String)) (rs : RunState) :
    ((mergeTextureEntries d fn entries tbl rs).2).minEngineVersion =
      rs.minEngineVersion :=
  congrArg Prod.fst (vst_mergeTextureEntries d fn entries tbl rs)

lemma mergeTextureEntries_sMV (d : Bool) (fn : String)
    (entries tbl : List (String × String)) (rs : RunState) :
    ((mergeTextureEntries d fn entries tbl rs).2).scriptModuleVersions =
      rs.scriptModuleVersions :=
  congrArg (fun p => p.2.1) (vst_mergeTextureEntries d fn entries tbl rs)

lemma mergeTextureEntries_sEP (d : Bool) (fn : String)
    (entries tbl : List (String × String)) (rs : RunState) :
    ((mergeTextureEntries d fn entries tbl rs).2).scriptEntryPoints =
      rs.scriptEntryPoints :=
  congrArg (fun p => p.2.2) (vst_mergeTextureEntries d fn entries tbl rs)

lemma vst_mergeTextures (d : Bool) (rp fsn : String) (t : TexturesIn)
    (cs : CoreState) (rs : RunState) :
    ((mergeTextures d rp fsn t cs rs).2).vst = rs.vst := by
  rcases t with ⟨fb, it, tt, tree⟩
  cases fb <;> cases it <;> cases tt <;>
    simp [mergeTextures, RunState.vst, mergeTextureEntries_minEngine,
      mergeTextureEntries_sMV, mergeTextureEntries_sEP]

lemma bind_eq_ok {σ γ : Type} {m : Except String σ}
    {g : σ → Except String γ} {r : γ} (h : (m >>= g) = .ok r) :
    ∃ x, m = .ok x ∧ g x = .ok r := by
  cases m with
  | error e => exact absurd h (by simp [exceptBind_error])
  | ok x =>
    rw [exceptBind_ok] at h
    exact ⟨x, rfl, h⟩

lemma vst_set_bpFiles (rs : RunState) (y : List (String × String)) :
    ({ rs with bpFiles := y }).vst = rs.vst := rfl

lemma vst_set_rpFiles (rs : RunState) (y : List (String × String)) :
    ({ rs with rpFiles := y }).vst = rs.vst := rfl

lemma vst_coreMergeSubDir (d : Bool) (bp rp : String) (p : Payload)
    (data : SubDirData) (cs : CoreState) (rs : RunState) (b : Bool)
    (cs' : CoreState) (rs' : RunState)
    (h : coreMergeSubDir d bp rp p data cs rs = .ok (b, cs', rs')) :
    rs'.vst = rs.vst := by
  rw [coreMergeSubDir.eq_def] at h
  split at h
  · obtain ⟨⟨ids2, rs2⟩, hm, hg⟩ := bind_eq_ok h
    cases hg
    exact vst_mergeWithDuplicateIdCheck _ _ _ _ _ _ _ _ _ _ hm
  · obtain ⟨⟨ids2, rs2⟩, hm, hg⟩ := bind_eq_ok h
    cases hg
    exact vst_mergeWithDuplicateIdCheck _ _ _ _ _ _ _ _ _ _ hm
  · obtain ⟨⟨ids2, rs2⟩, hm, hg⟩ := bind_eq_ok h
    cases hg
    exact vst_mergeWithDuplicateIdCheck _ _ _ _ _ _ _ _ _ _ hm
  · rename_i files _
    rcases hmm : mergeModels d p.fullSubDirName files cs.geometries rs with
      ⟨g2, rs2⟩
    rw [hmm] at h
    cases h
    have := vst_mergeModels d p.fullSubDirName files cs.geometries rs
    rw [hmm] at this
    exact this
  · obtain ⟨⟨ids2, rs2⟩, hm, hg⟩ := bind_eq_ok h
    cases hg
    exact vst_mergeWithDuplicateIdCheck _ _ _ _ _ _ _ _ _ _ hm
  · cases h
    rfl
  · rename_i files _
    rcases hmt : mergeTexts d p.fullSubDirName files cs.texts rs with ⟨t2, rs2⟩
    rw [hmt] at h
    cases h
    have := vst_mergeTexts d p.fullSubDirName files cs.texts rs
    rw [hmt] at this
    exact this
  · rename_i t _
    rcases hmx : mergeTextures d rp p.fullSubDirName t cs rs with ⟨cs2, rs2⟩
    rw [hmx] at h
    cases h
    have := vst_mergeTextures d rp p.fullSubDirName t cs rs
    rw [hmx] at this
    exact this
  · cases h
    rfl

lemma vst_pluginStep (cfg : Config) (bp rp : String) (p : Payload)
    (data : SubDirData) (acc acc' : Bool × CoreState × RunState)
    (pl : PluginM) (h : pluginStep cfg bp rp p data acc pl = .ok acc') :
    acc'.2.2.vst = acc.2.2.vst := by
  cases pl with
  | core =>
    rw [pluginStep] at h
    obtain ⟨⟨r, cs2, rs2⟩, hm, hg⟩ := bind_eq_ok h
    cases hg
    exact vst_coreMergeSubDir _ _ _ _ _ _ _ _ _ _ hm
  | custom onSubDir onFinishUp =>
    cases onSubDir with
    | none =>
      rw [pluginStep] at h
      cases h
      rfl
    | some hk =>
      rw [pluginStep] at h
      simp only [] at h
      cases h
      exact vst_actions _ _

lemma vst_mergePackSubDir (cfg : Config) (bp rp : String)
    (plugins : List PluginM) (p : Payload) (data : SubDirData)
    (cs : CoreState) (rs : RunState) (cs' : CoreState) (rs' : RunState)
    (h : mergePackSubDir cfg bp rp plugins p data cs rs = .ok (cs', rs')) :
    rs'.vst = rs.vst := by
  rw [mergePackSubDir] at h
  obtain ⟨⟨merged, cs2, rs2⟩, hm, hg⟩ := bind_eq_ok h
  have hinv := foldlM_except_inv
    (fun s : Bool × CoreState × RunState => s.2.2.vst = rs.vst)
    (pluginStep cfg bp rp p data)
    (fun s a s' hstep hP => (vst_pluginStep cfg bp rp p data s s' a hstep).trans hP)
    plugins (false, cs, rs) (merged, cs2, rs2) hm rfl
  cases merged with
  | true =>
    simp only [reduceIte] at hg
    cases hg
    exact hinv
  | false =>
    simp only [Bool.false_eq_true, reduceIte] at hg
    cases hg
    exact (vst_requireManualMerge _ _ _).trans hinv

/-! ## Characterizing the version state through a whole run -/

lemma processDeps_minEngine (deps : List Dep) (rs : RunState) :
    (processDeps deps rs).minEngineVersion = rs.minEngineVersion := by
  rw [processDeps]
  refine foldl_inv
    (fun s : RunState => s.minEngineVersion = rs.minEngineVersion) _ ?_
    deps rs rfl
  intro s dep hs
  cases hmn : dep.module_name with
  | none => simpa [hmn] using hs
  | some name =>
    cases hl : s.scriptModuleVersions.lookup name with
    | none => simpa [hmn, hl] using hs
    | some ex =>
      by_cases hgt : semverGt dep.version ex <;>
        by_cases hsat : semverSatisfiesCaret dep.version ex <;>
          simpa [hmn, hl, hgt, hsat, warn] using hs

lemma processDeps_sEP (deps : List Dep) (rs : RunState) :
    (processDeps deps rs).scriptEntryPoints = rs.scriptEntryPoints := by
  rw [processDeps]
  refine foldl_inv
    (fun s : RunState => s.scriptEntryPoints = rs.scriptEntryPoints) _ ?_
    deps rs rfl
  intro s dep hs
  cases hmn : dep.module_name with
  | none => simpa [hmn] using hs
  | some name =>
    cases hl : s.scriptModuleVersions.lookup name with
    | none => simpa [hmn, hl] using hs
    | some ex =>
      by_cases hgt : semverGt dep.version ex <;>
        by_cases hsat : semverSatisfiesCaret dep.version ex <;>
          simpa [hmn, hl, hgt, hsat, warn] using hs

/-- The single script entry point a pack module contributes, if any: the
first declared script module's entry, relocated by replacing the leading
`scripts` segment with the addon name. -/
def moduleEntryPoint (addonName : String) (pm : PackModule) : List String :=
  match (pm.manifest.modules.find? (fun m => m.type = "script")).bind
      (fun m => m.entry) with
  | some e => if e ≠ "" then [addonName ++ strDrop e 7] else []
  | none => []

lemma mergePackPre_minEngine (an : String) (pm : PackModule)
    (rs : RunState) :
    (mergePackPre an pm rs).minEngineVersion =
      minEngineStep rs.minEngineVersion pm.manifest.min_engine_version := by
  rw [mergePackPre, minEngineStep]
  by_cases hc : semverGt pm.manifest.min_engine_version rs.minEngineVersion
  · cases hse : (pm.manifest.modules.find? (fun m => m.type = "script")).bind
        (fun m => m.entry) with
    | none => simp [hc, hse, processDeps_minEngine]
    | some e =>
      by_cases he : e = "" <;> simp [hc, hse, he, processDeps_minEngine]
  · cases hse : (pm.manifest.modules.find? (fun m => m.type = "script")).bind
        (fun m => m.entry) with
    | none => simp [hc, hse, processDeps_minEngine]
    | some e =>
      by_cases he : e = "" <;> simp [hc, hse, he, processDeps_minEngine]

lemma mergePackPre_sEP (an : String) (pm : PackModule) (rs : RunState) :
    (mergePackPre an pm rs).scriptEntryPoints =
      rs.scriptEntryPoints ++ moduleEntryPoint an pm := by
  rw [mergePackPre, moduleEntryPoint]
  by_cases hc : semverGt pm.manifest.min_engine_version rs.minEngineVersion
  · cases hse : (pm.manifest.modules.find? (fun m => m.type = "script")).bind
        (fun m => m.entry) with
    | none => simp [hc, hse, processDeps_sEP]
    | some e =>
      by_cases he : e = "" <;> simp [hc, hse, he, processDeps_sEP]
  · cases hse : (pm.manifest.modules.find? (fun m => m.type = "script")).bind
        (fun m => m.entry) with
    | none => simp [hc, hse, processDeps_sEP]
    | some e =>
      by_cases he : e = "" <;> simp [hc, hse, he, processDeps_sEP]

lemma mergePack_ok_char (cfg : Config) (bp rp : String)
    (plugins : List PluginM) (an : String) (pm : PackModule)
    (cs : CoreState) (rs : RunState) (cs' : CoreState) (rs' : RunState)
    (h : mergePack cfg bp rp plugins an pm cs rs = .ok (cs', rs')) :
    rs'.minEngineVersion =
      minEngineStep rs.minEngineVersion pm.manifest.min_engine_version ∧
    rs'.scriptEntryPoints =
      rs.scriptEntryPoints ++ moduleEntryPoint an pm := by
  rw [mergePack] at h
  have hinv := foldlM_except_inv
    (fun s : CoreState × RunState => s.2.vst = (mergePackPre an pm rs).vst)
    _
    (fun s a s' hstep hP => by
      rcases s' with ⟨cs2, rs2⟩
      exact (vst_mergePackSubDir _ _ _ _ _ _ _ _ _ _ hstep).trans hP)
    pm.subDirs (cs, mergePackPre an pm rs) (cs', rs') h rfl
  have h1 : rs'.minEngineVersion = (mergePackPre an pm rs).minEngineVersion :=
    congrArg Prod.fst hinv
  have h2 : rs'.scriptEntryPoints =
      (mergePackPre an pm rs).scriptEntryPoints :=
    congrArg (fun p => p.2.2) hinv
  exact ⟨h1.trans (mergePackPre_minEngine an pm rs),
    h2.trans (mergePackPre_sEP an pm rs)⟩

/-- The declared minimum engine versions of every pack module, in processing
order. -/
def declaredMinVersions (addons : List Addon) : List SemVer :=
  addons.flatMap
    (fun a => a.modules.map (fun pm => pm.manifest.min_engine_version))

/-- Every entry point collected over a run, in processing order. -/
def collectEntryPoints (addons : List Addon) : List String :=
  addons.flatMap (fun a => a.modules.flatMap (moduleEntryPoint a.name))

lemma modules_fold_char (cfg : Config) (bp rp : String)
    (plugins : List PluginM) (an : String) :
    ∀ (mods : List PackModule) (cs : CoreState) (rs : RunState)
      (r : CoreState × RunState),
      List.foldlM
        (fun (acc : CoreState × RunState) pm =>
          mergePack cfg bp rp plugins an pm acc.1 acc.2) (cs, rs) mods =
        .ok r →
      r.2.minEngineVersion =
        (mods.map (fun pm => pm.manifest.min_engine_version)).foldl
          minEngineStep rs.minEngineVersion ∧
      r.2.scriptEntryPoints =
        rs.scriptEntryPoints ++ mods.flatMap (moduleEntryPoint an) := by
  intro mods
  induction mods with
  | nil =>
    intro cs rs r h
    cases h
    simp
  | cons pm mods ih =>
    intro cs rs r h
    rw [List.foldlM_cons] at h
    obtain ⟨⟨cs2, rs2⟩, hm, hrest⟩ := bind_eq_ok h
    obtain ⟨e1, e2⟩ := mergePack_ok_char cfg bp rp plugins an pm cs rs cs2
      rs2 hm
    obtain ⟨f1, f2⟩ := ih cs2 rs2 r hrest
    constructor
    · rw [f1, e1, List.map_cons, List.foldl_cons]
    · rw [f2, e2, List.flatMap_cons, List.append_assoc]

lemma addons_fold_char (cfg : Config) (bp rp : String)
    (plugins : List PluginM) :
    ∀ (addons : List Addon) (cs : CoreState) (rs : RunState)
      (r : CoreState × RunState),
      List.foldlM
        (fun (acc : CoreState × RunState) addon =>
          addon.modules.foldlM
            (fun (acc : CoreState × RunState) pm =>
              mergePack cfg bp rp plugins addon.name pm acc.1 acc.2) acc)
        (cs, rs) addons = .ok r →
      r.2.minEngineVersion =
        (declaredMinVersions addons).foldl minEngineStep
          rs.minEngineVersion ∧
      r.2.scriptEntryPoints =
        rs.scriptEntryPoints ++ collectEntryPoints addons := by
  intro addons
  induction addons with
  | nil =>
    intro cs rs r h
    cases h
    simp [declaredMinVersions, collectEntryPoints]
  | cons a addons ih =>
    intro cs rs r h
    rw [List.foldlM_cons] at h
    obtain ⟨⟨cs2, rs2⟩, hm, hrest⟩ := bind_eq_ok h
    obtain ⟨e1, e2⟩ := modules_fold_char cfg bp rp plugins a.name a.modules
      cs rs (cs2, rs2) hm
    obtain ⟨f1, f2⟩ := ih cs2 rs2 r hrest
    constructor
    · rw [f1, e1]
      simp [declaredMinVersions, List.flatMap_cons, List.foldl_append]
    · rw [f2, e2]
      simp [collectEntryPoints, List.flatMap_cons, List.append_assoc]

lemma vst_coreFinishUp (rp : String) (cs : CoreState) (rs : RunState) :
    (coreFinishUp rp cs rs).vst = rs.vst := by
  by_cases h1 : cs.texts = [] <;> by_cases h2 : cs.geometries = [] <;>
    by_cases h3 : cs.flipbookTextureData = [] <;>
    by_cases h4 : cs.itemTextureData = [] <;>
    by_cases h5 : cs.terrainTextureData = [] <;>
    simp [coreFinishUp, h1, h2, h3, h4, h5, RunState.vst]

lemma vst_runFinishUps (cfg : Config) (rp : String) (cs : CoreState)
    (plugins : List PluginM) (rs : RunState) :
    (runFinishUps cfg rp plugins cs rs).vst = rs.vst := by
  rw [runFinishUps]
  refine foldl_inv (fun s : RunState => s.vst = rs.vst) _ ?_ plugins rs rfl
  intro s pl hs
  cases pl with
  | core => exact (vst_coreFinishUp rp cs s).trans hs
  | custom onSubDir onFinishUp =>
    cases onFinishUp with
    | none => exact hs
    | some f => exact (vst_actions _ _).trans hs

/-- What `finishRun` makes of the final run state: the version state is
untouched, the script module entry and the entry-file write are present
exactly when entry points were collected, and the plugins/config fields pass
through. -/
lemma finishRun_char (cfgO : Config) (bp rp : String)
    (pluginsOut : List PluginM) (cs : CoreState) (rs : RunState) :
    (finishRun cfgO bp rp pluginsOut cs rs).run.minEngineVersion =
      rs.minEngineVersion ∧
    (finishRun cfgO bp rp pluginsOut cs rs).run.scriptEntryPoints =
      rs.scriptEntryPoints ∧
    (finishRun cfgO bp rp pluginsOut cs rs).bpManifest.min_engine_version =
      rs.minEngineVersion ∧
    (finishRun cfgO bp rp pluginsOut cs rs).rpManifest.min_engine_version =
      rs.minEngineVersion ∧
    (finishRun cfgO bp rp pluginsOut cs rs).bpManifest.modules =
      ModuleDecl.mk "data" none ::
        (if rs.scriptEntryPoints ≠ [] then
          [ModuleDecl.mk "script" (some "scripts/index.js")]
        else []) ∧
    (finishRun cfgO bp rp pluginsOut cs rs).scriptsIndexWrite =
      (if rs.scriptEntryPoints ≠ [] then
        some (String.join (rs.scriptEntryPoints.map
          (fun ep => "import\"./" ++ ep ++ "\";")))
      else none) ∧
    (finishRun cfgO bp rp pluginsOut cs rs).pluginsOut = pluginsOut ∧
    (finishRun cfgO bp rp pluginsOut cs rs).configOut = cfgO ∧
    (finishRun cfgO bp rp pluginsOut cs rs).core = cs := by
  have hv := vst_runFinishUps cfgO rp cs pluginsOut rs
  rw [RunState.vst, RunState.vst, Prod.mk.injEq, Prod.mk.injEq] at hv
  obtain ⟨hv1, hv2, hv3⟩ := hv
  by_cases hne : rs.scriptEntryPoints = [] <;>
    refine ⟨?_, ?_, ?_, ?_, ?_, ?_, ?_, ?_, ?_⟩ <;>
    simp [finishRun, hne, hv1, hv2, hv3]

/-- Master characterization of a successful `mergePacks` run: the final
version state comes from the manifest folds alone, both manifests carry the
running minimum engine version, the script module and entry file exist
exactly when entry points were collected, the caller's plugins array has the
core plugin appended, and the caller's config carries the defaulted flag. -/
lemma mergePacksModel_ok_char
    (cs : CoreState) (config : Config) (plugins : List PluginM)
    (addons : List Addon) (out : MergeOutput)
    (h : mergePacksModel cs config plugins addons = .ok out) :
    out.run.minEngineVersion =
      (declaredMinVersions addons).foldl minEngineStep ⟨1, 21, 50⟩ ∧
    out.run.scriptEntryPoints = collectEntryPoints addons ∧
    out.bpManifest.min_engine_version = out.run.minEngineVersion ∧
    out.rpManifest.min_engine_version = out.run.minEngineVersion ∧
    out.bpManifest.modules =
      ModuleDecl.mk "data" none ::
        (if out.run.scriptEntryPoints ≠ [] then
          [ModuleDecl.mk "script" (some "scripts/index.js")]
        else []) ∧
    out.scriptsIndexWrite =
      (if out.run.scriptEntryPoints ≠ [] then
        some (String.join (out.run.scriptEntryPoints.map
          (fun ep => "import\"./" ++ ep ++ "\";")))
      else none) ∧
    out.pluginsOut = plugins ++ [PluginM.core] ∧
    out.configOut =
      { config with
        duplicateIdentifierWarnings :=
          some (config.duplicateIdentifierWarnings.getD true) } := by
  rw [mergePacksModel] at h
  obtain ⟨⟨csF, rsF⟩, hfold, hpure⟩ := bind_eq_ok h
  obtain ⟨e1, e2⟩ := addons_fold_char _ _ _ _ addons cs initRunState
    (csF, rsF) hfold
  simp only [initRunState, List.nil_append] at e1 e2
  cases hpure
  obtain ⟨f1, f2, f3, f4, f5, f6, f7, f8, f9⟩ := finishRun_char
    { config with
      duplicateIdentifierWarnings :=
        some (config.duplicateIdentifierWarnings.getD true) }
    (pj config.outDir "BP") (pj config.outDir "RP")
    (plugins ++ [PluginM.core]) csF rsF
  refine ⟨?_, ?_, ?_, ?_, ?_, ?_, ?_, ?_⟩
  · rw [f1, e1]
  · rw [f2, e2]
  · rw [f3, f1]
  · rw [f4, f1]
  · rw [f5, f2]
  · rw [f6, f2]
  · exact f7
  · exact f8

/-! ## C3: the synthesized minimum engine version -/

/-- Modelled from the spec's words ("the component-wise maximum across all
input packages' declared minimums"): fold the component-wise maximum of
triples over the declared versions, starting at the baseline. Stated only to
compare against what the engine actually computes. -/
def specComponentwiseMax (baseline : SemVer) (vs : List SemVer) : SemVer :=
  vs.foldl
    (fun a b => ⟨max a.major b.major, max a.minor b.minor,
      max a.patch b.patch⟩)
    baseline

/-- The behavior-manifest `min_engine_version` of a run result, when the run
succeeded. -/
def bpMinOf : Except String MergeOutput → Option SemVer
  | .ok out => some out.bpManifest.min_engine_version
  | .error _ => none

/-- Shared fixture configuration. -/
def cfgFix : Config := ⟨"in", "out", none⟩

/-- Fixture: an addon whose only module declares engine version `2.0.0`. -/
def addonV200 : Addon := ⟨"A", [⟨"bp", ⟨⟨2, 0, 0⟩, [], []⟩, []⟩]⟩

/-- Fixture: an addon whose only module declares engine version `1.99.0`. -/
def addonV1990 : Addon := ⟨"B", [⟨"bp", ⟨⟨1, 99, 0⟩, [], []⟩, []⟩]⟩

/-- **C3 counterexample.** For declared versions `2.0.0` and `1.99.0` the
engine writes `2.0.0` into the behavior manifest (the `semver.gt` fold keeps
the lexicographically greater triple), while the component-wise maximum over
the same inputs and the baseline `1.21.50` is `2.99.50` — so the written
version is **not** the component-wise maximum. -/
theorem min_engine_version_componentwise_counterexample :
    bpMinOf (mergePacksModel CoreState.empty cfgFix []
      [addonV200, addonV1990]) = some ⟨2, 0, 0⟩ ∧
    specComponentwiseMax ⟨1, 21, 50⟩ [⟨2, 0, 0⟩, ⟨1, 99, 0⟩] =
      ⟨2, 99, 50⟩ ∧
    (⟨2, 0, 0⟩ : SemVer) ≠ ⟨2, 99, 50⟩ := by
  refine ⟨by decide, by decide, by decide⟩

/-- **C3 amended.** The `min_engine_version` written into both output
manifests equals the maximum under the `semver.gt` (numeric-lexicographic)
order of the baseline `1.21.50` and all input modules' declared triples: it
is the lexicographic fold of the declared versions, the same value in both
manifests, it is the baseline or one of the declared triples, no declared
triple exceeds it, and it is never less than the baseline. -/
theorem min_engine_version_is_semver_max (cs : CoreState) (config : Config)
    (plugins : List PluginM) (addons : List Addon) (out : MergeOutput)
    (h : mergePacksModel cs config plugins addons = .ok out) :
    out.bpManifest.min_engine_version =
      (declaredMinVersions addons).foldl minEngineStep ⟨1, 21, 50⟩ ∧
    out.rpManifest.min_engine_version = out.bpManifest.min_engine_version ∧
    (out.bpManifest.min_engine_version = ⟨1, 21, 50⟩ ∨
      out.bpManifest.min_engine_version ∈ declaredMinVersions addons) ∧
    (∀ v ∈ declaredMinVersions addons,
      semverGt v out.bpManifest.min_engine_version = false) ∧
    semverGt ⟨1, 21, 50⟩ out.bpManifest.min_engine_version = false := by
  obtain ⟨c1, c2, c3, c4, c5, c6, c7, c8⟩ :=
    mergePacksModel_ok_char cs config plugins addons out h
  have hbp : out.bpManifest.min_engine_version =
      (declaredMinVersions addons).foldl minEngineStep ⟨1, 21, 50⟩ :=
    c3.trans c1
  refine ⟨hbp, c4.trans c3.symm, ?_, ?_, ?_⟩
  · rw [hbp]
    exact foldl_minEngineStep_mem _ _
  · intro v hv
    rw [hbp]
    exact foldl_minEngineStep_ub _ _ v hv
  · rw [hbp]
    exact foldl_minEngineStep_ge_init _ _

/-- Witness for `min_engine_version_is_semver_max` at the concrete
two-addon run of the counterexample input. -/
theorem min_engine_version_is_semver_max_witness :
    bpMinOf (mergePacksModel CoreState.empty cfgFix []
      [addonV200, addonV1990]) = some ⟨2, 0, 0⟩ ∧
    semverGt ⟨1, 21, 50⟩ (⟨2, 0, 0⟩ : SemVer) = false := by
  have hok : (mergePacksModel CoreState.empty cfgFix []
      [addonV200, addonV1990]).isOk = true := by decide
  cases hr : mergePacksModel CoreState.empty cfgFix []
      [addonV200, addonV1990] with
  | error e =>
    rw [hr] at hok
    exact absurd hok (by simp [Except.isOk, Except.toBool])
  | ok out =>
    obtain ⟨m1, -, -, -, m5⟩ :=
      min_engine_version_is_semver_max CoreState.empty cfgFix []
        [addonV200, addonV1990] out hr
    have hval : out.bpManifest.min_engine_version = ⟨2, 0, 0⟩ := by
      rw [m1]
      decide
    constructor
    · rw [bpMinOf, hval]
    · rw [← hval]
      exact m5

/-! ## C8: the combined script entry -/

/-- The conditional `scripts/index.js` write of a run result. -/
def scriptsIndexOf : Except String MergeOutput → Option (Option String)
  | .ok out => some out.scriptsIndexWrite
  | .error _ => none

/-- The behavior-manifest module list of a run result. -/
def bpModulesOf : Except String MergeOutput → Option (List ModuleDecl)
  | .ok out => some out.bpManifest.modules
  | .error _ => none

/-- Fixture: addon `A` contributing script entry `scripts/main.js`. -/
def addonScriptA : Addon :=
  ⟨"A", [⟨"bp", ⟨⟨1, 21, 50⟩, [⟨"script", some "scripts/main.js"⟩], []⟩,
    []⟩]⟩

/-- Fixture: addon `B` contributing script entry `scripts/main.js`. -/
def addonScriptB : Addon :=
  ⟨"B", [⟨"bp", ⟨⟨1, 21, 50⟩, [⟨"script", some "scripts/main.js"⟩], []⟩,
    []⟩]⟩

/-- **C8 counterexample.** With two contributing packages the generated
entry file is the two import statements joined with no separator — a single
line, not one line per source package: splitting the written content on
newlines yields 1 line, not 2. -/
theorem script_entry_one_line_counterexample :
    scriptsIndexOf (mergePacksModel CoreState.empty cfgFix []
      [addonScriptA, addonScriptB]) =
      some (some "import\"./A/main.js\";import\"./B/main.js\";") ∧
    (splitOnChar (Char.ofNat 10)
      "import\"./A/main.js\";import\"./B/main.js\";").length = 1 ∧
    (1 : Nat) ≠ 2 := by
  refine ⟨by decide, by decide, by decide⟩

/-- **C8 amended.** If at least one pack module declares a script module
with a nonempty entry, the output behavior manifest contains a script module
with entry `scripts/index.js`, and the engine writes a single entry file
whose content is the concatenation — with no separator, hence on a single
line — of one `import"./<addon><entry-minus-scripts>";` statement per
contributing pack module, in processing order; when no module contributes,
no script module is listed and no entry file is written. -/
theorem script_entry_aggregation (cs : CoreState) (config : Config)
    (plugins : List PluginM) (addons : List Addon) (out : MergeOutput)
    (h : mergePacksModel cs config plugins addons = .ok out) :
    out.run.scriptEntryPoints = collectEntryPoints addons ∧
    out.scriptsIndexWrite =
      (if collectEntryPoints addons ≠ [] then
        some (String.join ((collectEntryPoints addons).map
          (fun ep => "import\"./" ++ ep ++ "\";")))
      else none) ∧
    out.bpManifest.modules =
      ModuleDecl.mk "data" none ::
        (if collectEntryPoints addons ≠ [] then
          [ModuleDecl.mk "script" (some "scripts/index.js")]
        else []) := by
  obtain ⟨c1, c2, c3, c4, c5, c6, c7, c8⟩ :=
    mergePacksModel_ok_char cs config plugins addons out h
  rw [c2] at c5 c6
  exact ⟨c2, c6, c5⟩

/-- Witness for `script_entry_aggregation` at a concrete two-package run. -/
theorem script_entry_aggregation_witness :
    scriptsIndexOf (mergePacksModel CoreState.empty cfgFix []
      [addonScriptA, addonScriptB]) =
      some (some "import\"./A/main.js\";import\"./B/main.js\";") ∧
    bpModulesOf (mergePacksModel CoreState.empty cfgFix []
      [addonScriptA, addonScriptB]) =
      some [ModuleDecl.mk "data" none,
        ModuleDecl.mk "script" (some "scripts/index.js")] := by
  have hok : (mergePacksModel CoreState.empty cfgFix []
      [addonScriptA, addonScriptB]).isOk = true := by decide
  cases hr : mergePacksModel CoreState.empty cfgFix []
      [addonScriptA, addonScriptB] with
  | error e =>
    rw [hr] at hok
    exact absurd hok (by simp [Except.isOk, Except.toBool])
  | ok out =>
    obtain ⟨-, w2, w3⟩ := script_entry_aggregation CoreState.empty cfgFix []
      [addonScriptA, addonScriptB] out hr
    constructor
    · rw [scriptsIndexOf, w2]
      decide
    · rw [bpModulesOf, w3]
      decide

/-! ## C9: texture atlas merge -/

lemma lookup_eq_none_of_not_mem_keys {α : Type} (l : List (String × α))
    (k : String) (h : k ∉ l.map Prod.fst) : l.lookup k = none := by
  induction l with
  | nil => rfl
  | cons p rest ih =>
    rw [lookup_cons_split]
    rw [List.map_cons, List.mem_cons] at h
    push_neg at h
    rw [if_neg h.1]
    exact ih h.2

lemma mergeTextureEntries_cons (d : Bool) (fn k v : String)
    (es tbl : List (String × String)) (rs : RunState) :
    mergeTextureEntries d fn ((k, v) :: es) tbl rs =
      mergeTextureEntries d fn es
        (setOrDuplicateIdWarning d fn tbl k v none rs).1
        (setOrDuplicateIdWarning d fn tbl k v none rs).2.2 := by
  rw [mergeTextureEntries, mergeTextureEntries, List.foldl_cons]

lemma mergeTextureEntries_fresh (d : Bool) (fn : String) :
    ∀ (entries tbl : List (String × String)) (rs : RunState),
      ((tbl ++ entries).map Prod.fst).Nodup →
      mergeTextureEntries d fn entries tbl rs = (tbl ++ entries, rs) := by
  intro entries
  induction entries with
  | nil =>
    intro tbl rs _
    simp [mergeTextureEntries]
  | cons e es ih =>
    intro tbl rs hnd
    have hkey : e.1 ∉ tbl.map Prod.fst := by
      rw [List.map_append, List.nodup_append] at hnd
      intro hmem
      exact hnd.2.2 hmem (by simp)
    have hlook : tbl.lookup e.1 = none :=
      lookup_eq_none_of_not_mem_keys tbl e.1 hkey
    rcases e with ⟨k, v⟩
    rw [mergeTextureEntries_cons]
    simp only [setOrDuplicateIdWarning, hlook]
    rw [show (tbl ++ (k, v) :: es) = (tbl ++ [(k, v)]) ++ es by simp] at hnd
    rw [ih (tbl ++ [(k, v)]) rs hnd]
    simp

lemma rpFiles_setOrDuplicateIdWarning {α : Type} (d : Bool) (f : String)
    (m : List (String × α)) (k : String) (v : α) (o : Option String)
    (rs : RunState) :
    ((setOrDuplicateIdWarning d f m k v o rs).2.2).rpFiles = rs.rpFiles := by
  cases h : m.lookup k with
  | none => simp [setOrDuplicateIdWarning, h]
  | some w => cases d <;> simp [setOrDuplicateIdWarning, h, warn]

lemma rpFiles_mergeTextureEntries (d : Bool) (fn : String)
    (entries tbl : List (String × String)) (rs : RunState) :
    ((mergeTextureEntries d fn entries tbl rs).2).rpFiles = rs.rpFiles := by
  rw [mergeTextureEntries]
  refine foldl_inv
    (fun q : List (String × String) × RunState => q.2.rpFiles = rs.rpFiles)
    _ ?_ entries (tbl, rs) rfl
  intro q e hq
  simp only []
  exact (rpFiles_setOrDuplicateIdWarning d fn q.1 e.1 e.2 none q.2).trans hq

/-- Fixture: a `textures` sub-directory whose tree holds the aggregate file
`terrain_texture.json` itself (raw content `RAW_TT`) plus one plain texture,
with the parsed aggregate carrying one texture key. -/
def texInFix : TexturesIn :=
  ⟨none, none, some [("tex1", "\x7b\"textures\":\"a\"\x7d")],
    [("terrain_texture.json", "RAW_TT"), ("blocks/a.png", "PNG1")]⟩

/-- **C9 counterexample.** The recursive copy of `mergeTextures` copies the
whole sub-directory tree — the aggregate `terrain_texture.json` included:
after the strategy runs, the output textures directory holds the raw input
aggregate file verbatim, contradicting "only the remainder of the
subdirectory tree (not the aggregate files themselves) is copied". -/
theorem textures_aggregate_also_copied_counterexample :
    ((mergeTextures true "out/RP" "A/rp/textures" texInFix CoreState.empty
        initRunState).2).rpFiles.lookup
      "out/RP/textures/terrain_texture.json" = some "RAW_TT" := by
  decide

/-- **C9 amended.** (1) Merging `textures` sub-directories of two packages
whose terrain texture-data keys are disjoint (and individually duplicate
free) accumulates exactly the union, in order, into the shared terrain
table; (2) the whole sub-directory tree — aggregate files included — is
copied verbatim into the output textures directory; (3) finalization then
(over)writes `terrain_texture.json` with the serialization of the merged
table whenever it is nonempty, so the finalized aggregate holds the union
while the rest of the tree stays verbatim. -/
theorem textures_union_and_whole_tree_copied
    (d : Bool) (rp fsnA fsnB : String) (cs : CoreState) (rs rs1 : RunState)
    (e1 e2 tree1 tree2 : List (String × String))
    (h0 : cs.terrainTextureData = [])
    (hnd : ((e1 ++ e2).map Prod.fst).Nodup) :
    (∀ (d' : Bool) (rp' fsn' : String) (t : TexturesIn) (cs' : CoreState)
        (rs' : RunState),
      ((mergeTextures d' rp' fsn' t cs' rs').2).rpFiles =
        cpTree t.tree (pj rp' "textures") rs'.rpFiles) ∧
    ((mergeTextures d rp fsnA ⟨none, none, some e1, tree1⟩ cs
      rs).1).terrainTextureData = e1 ∧
    ((mergeTextures d rp fsnB ⟨none, none, some e2, tree2⟩
        (mergeTextures d rp fsnA ⟨none, none, some e1, tree1⟩ cs rs).1
        rs1).1).terrainTextureData = e1 ++ e2 ∧
    (∀ (cs' : CoreState) (rs' : RunState),
      cs'.terrainTextureData ≠ [] →
      (coreFinishUp rp cs' rs').rpFiles.lookup
        (pj (pj rp "textures") "terrain_texture.json") =
        some (serializeTexData cs'.terrainTextureData)) := by
  have he1 : (e1.map Prod.fst).Nodup := by
    rw [List.map_append, List.nodup_append] at hnd
    exact hnd.1
  refine ⟨?_, ?_, ?_, ?_⟩
  · intro d' rp' fsn' t cs' rs'
    rcases t with ⟨fb, it, tt, tree⟩
    cases fb <;> cases it <;> cases tt <;>
      simp [mergeTextures, rpFiles_mergeTextureEntries]
  · simp only [mergeTextures]
    rw [mergeTextureEntries_fresh d (pj fsnA "terrain_texture.json") e1
      cs.terrainTextureData rs (by rw [h0]; simpa using he1)]
    simp [h0]
  · simp only [mergeTextures]
    rw [mergeTextureEntries_fresh d (pj fsnA "terrain_texture.json") e1
      cs.terrainTextureData rs (by rw [h0]; simpa using he1)]
    simp only [h0, List.nil_append]
    rw [mergeTextureEntries_fresh d (pj fsnB "terrain_texture.json") e2 e1
      _ hnd]
  · intro cs' rs' hne
    simp [coreFinishUp, hne, lookup_setAssoc_self]

/-- Witness for `textures_union_and_whole_tree_copied`: two packages with
disjoint terrain keys `tex1`, `tex2`; the merged table and the finalized
file hold both. -/
theorem textures_union_witness :
    ((mergeTextures true "out/RP" "B/rp/textures"
        ⟨none, none, some [("tex2", "V2")], []⟩
        (mergeTextures true "out/RP" "A/rp/textures"
          ⟨none, none, some [("tex1", "V1")], []⟩ CoreState.empty
          initRunState).1
        initRunState).1).terrainTextureData =
      [("tex1", "V1"), ("tex2", "V2")] ∧
    (coreFinishUp "out/RP"
        { CoreState.empty with
          terrainTextureData := [("tex1", "V1"), ("tex2", "V2")] }
        initRunState).rpFiles.lookup "out/RP/textures/terrain_texture.json" =
      some (serializeTexData [("tex1", "V1"), ("tex2", "V2")]) := by
  have h := textures_union_and_whole_tree_copied true "out/RP"
    "A/rp/textures" "B/rp/textures" CoreState.empty initRunState
    initRunState [("tex1", "V1")] [("tex2", "V2")] [] [] (by decide)
    (by decide)
  obtain ⟨-, -, h3, h4⟩ := h
  refine ⟨by simpa using h3, ?_⟩
  have := h4
    { CoreState.empty with
      terrainTextureData := [("tex1", "V1"), ("tex2", "V2")] }
    initRunState (by decide)
  simpa [pj] using this

/-! ## C2: state does leak between invocations -/

/-- `b` extends every identifier registry of `a` (the registries are
append-only and never reset). -/
def RegPrefix (a b : CoreState) : Prop :=
  a.blockIds <+: b.blockIds ∧ a.entityIds <+: b.entityIds ∧
    a.itemIds <+: b.itemIds ∧ a.recipeIds <+: b.recipeIds

lemma RegPrefix.refl (a : CoreState) : RegPrefix a a :=
  ⟨List.prefix_rfl, List.prefix_rfl, List.prefix_rfl, List.prefix_rfl⟩

lemma RegPrefix.trans {a b c : CoreState} (h1 : RegPrefix a b)
    (h2 : RegPrefix b c) : RegPrefix a c :=
  ⟨h1.1.trans h2.1, h1.2.1.trans h2.2.1, h1.2.2.1.trans h2.2.2.1,
    h1.2.2.2.trans h2.2.2.2⟩

lemma prefix_mergeIdFile (d : Bool) (dd fsn : String)
    (ids : List (String × String)) (rs : RunState) (file : ContentFile)
    (ids' : List (String × String)) (rs' : RunState)
    (h : mergeIdFile d dd fsn ids rs file = .ok (ids', rs')) :
    ids <+: ids' := by
  rw [mergeIdFile] at h
  cases hf : file.rootEntries.find? (fun p => strStartsWith p.1 "minecraft:")
      with
  | none =>
    rw [hf] at h
    exact absurd h (by simp)
  | some e =>
    rw [hf] at h
    simp only [] at h
    cases hl : ids.lookup e.2 with
    | some w =>
      simp only [setOrDuplicateIdWarning, hl, Bool.false_eq_true,
        reduceIte] at h
      cases h
      exact List.prefix_rfl
    | none =>
      simp only [setOrDuplicateIdWarning, hl, reduceIte] at h
      cases h
      exact ⟨[(e.2, pj fsn file.name)], rfl⟩

lemma prefix_mergeWithDuplicateIdCheck (d : Bool) (bp sdn an fsn : String)
    (files : List ContentFile) (ids : List (String × String))
    (rs : RunState) (ids' : List (String × String)) (rs' : RunState)
    (h : mergeWithDuplicateIdCheck d bp sdn an fsn files ids rs =
      .ok (ids', rs')) :
    ids <+: ids' := by
  rw [mergeWithDuplicateIdCheck] at h
  have := foldlM_except_inv
    (fun s : List (String × String) × RunState => ids <+: s.1)
    (fun acc file =>
      mergeIdFile d (pj (pj bp sdn) an) fsn acc.1 acc.2 file)
    (fun s a s' hstep hP => by
      rcases s' with ⟨i2, r2⟩
      exact hP.trans (prefix_mergeIdFile _ _ _ _ _ _ _ _ hstep))
    files (ids, rs) (ids', rs') h List.prefix_rfl
  exact this

lemma regPrefix_mergeTextures (d : Bool) (rp fsn : String)
    (t : TexturesIn) (cs : CoreState) (rs : RunState) :
    RegPrefix cs ((mergeTextures d rp fsn t cs rs).1) := by
  rcases t with ⟨fb, it, tt, tree⟩
  cases fb <;> cases it <;> cases tt <;>
    simp [mergeTextures, RegPrefix, List.prefix_rfl]

lemma regPrefix_coreMergeSubDir (d : Bool) (bp rp : String) (p : Payload)
    (data : SubDirData) (cs : CoreState) (rs : RunState) (b : Bool)
    (cs' : CoreState) (rs' : RunState)
    (h : coreMergeSubDir d bp rp p data cs rs = .ok (b, cs', rs')) :
    RegPrefix cs cs' := by
  rw [coreMergeSubDir.eq_def] at h
  split at h
  · obtain ⟨⟨ids2, rs2⟩, hm, hg⟩ := bind_eq_ok h
    cases hg
    exact ⟨prefix_mergeWithDuplicateIdCheck _ _ _ _ _ _ _ _ _ _ hm,
      List.prefix_rfl, List.prefix_rfl, List.prefix_rfl⟩
  · obtain ⟨⟨ids2, rs2⟩, hm, hg⟩ := bind_eq_ok h
    cases hg
    exact ⟨List.prefix_rfl,
      prefix_mergeWithDuplicateIdCheck _ _ _ _ _ _ _ _ _ _ hm,
      List.prefix_rfl, List.prefix_rfl⟩
  · obtain ⟨⟨ids2, rs2⟩, hm, hg⟩ := bind_eq_ok h
    cases hg
    exact ⟨List.prefix_rfl, List.prefix_rfl,
      prefix_mergeWithDuplicateIdCheck _ _ _ _ _ _ _ _ _ _ hm,
      List.prefix_rfl⟩
  · rename_i files _
    rcases hmm : mergeModels d p.fullSubDirName files cs.geometries rs with
      ⟨g2, rs2⟩
    rw [hmm] at h
    cases h
    exact RegPrefix.refl _
  · obtain ⟨⟨ids2, rs2⟩, hm, hg⟩ := bind_eq_ok h
    cases hg
    exact ⟨List.prefix_rfl, List.prefix_rfl, List.prefix_rfl,
      prefix_mergeWithDuplicateIdCheck _ _ _ _ _ _ _ _ _ _ hm⟩
  · cases h
    exact RegPrefix.refl _
  · rename_i files _
    rcases hmt : mergeTexts d p.fullSubDirName files cs.texts rs with
      ⟨t2, rs2⟩
    rw [hmt] at h
    cases h
    exact RegPrefix.refl _
  · rename_i t _
    rcases hmx : mergeTextures d rp p.fullSubDirName t cs rs with ⟨cs2, rs2⟩
    rw [hmx] at h
    cases h
    have hcs : cs' = (mergeTextures d rp p.fullSubDirName t cs rs).1 := by
      rw [hmx]
    rw [hcs]
    exact regPrefix_mergeTextures d rp p.fullSubDirName t cs rs
  · cases h
    exact RegPrefix.refl _

lemma regPrefix_pluginStep (cfg : Config) (bp rp : String) (p : Payload)
    (data : SubDirData) (acc acc' : Bool × CoreState × RunState)
    (pl : PluginM) (h : pluginStep cfg bp rp p data acc pl = .ok acc') :
    RegPrefix acc.2.1 acc'.2.1 := by
  cases pl with
  | core =>
    rw [pluginStep] at h
    obtain ⟨⟨r, cs2, rs2⟩, hm, hg⟩ := bind_eq_ok h
    cases hg
    exact regPrefix_coreMergeSubDir _ _ _ _ _ _ _ _ _ _ hm
  | custom onSubDir onFinishUp =>
    cases onSubDir with
    | none =>
      rw [pluginStep] at h
      cases h
      exact RegPrefix.refl _
    | some hk =>
      rw [pluginStep] at h
      simp only [] at h
      cases h
      exact RegPrefix.refl _

lemma regPrefix_mergePackSubDir (cfg : Config) (bp rp : String)
    (plugins : List PluginM) (p : Payload) (data : SubDirData)
    (cs : CoreState) (rs : RunState) (cs' : CoreState) (rs' : RunState)
    (h : mergePackSubDir cfg bp rp plugins p data cs rs = .ok (cs', rs')) :
    RegPrefix cs cs' := by
  rw [mergePackSubDir] at h
  obtain ⟨⟨merged, cs2, rs2⟩, hm, hg⟩ := bind_eq_ok h
  have hinv := foldlM_except_inv
    (fun s : Bool × CoreState × RunState => RegPrefix cs s.2.1)
    (pluginStep cfg bp rp p data)
    (fun s a s' hstep hP =>
      hP.trans (regPrefix_pluginStep cfg bp rp p data s s' a hstep))
    plugins (false, cs, rs) (merged, cs2, rs2) hm (RegPrefix.refl cs)
  cases merged with
  | true =>
    simp only [reduceIte] at hg
    cases hg
    exact hinv
  | false =>
    simp only [Bool.false_eq_true, reduceIte] at hg
    cases hg
    exact hinv

lemma regPrefix_mergePack (cfg : Config) (bp rp : String)
    (plugins : List PluginM) (an : String) (pm : PackModule)
    (cs : CoreState) (rs : RunState) (cs' : CoreState) (rs' : RunState)
    (h : mergePack cfg bp rp plugins an pm cs rs = .ok (cs', rs')) :
    RegPrefix cs cs' := by
  rw [mergePack] at h
  exact foldlM_except_inv
    (fun z : CoreState × RunState => RegPrefix cs z.1)
    _
    (fun z sd z' hz hP => by
      rcases z' with ⟨cs4, rs4⟩
      exact hP.trans (regPrefix_mergePackSubDir _ _ _ _ _ _ _ _ _ _ hz))
    pm.subDirs (cs, mergePackPre an pm rs) (cs', rs') h (RegPrefix.refl _)

lemma regPrefix_modulesFold (cfg : Config) (bp rp : String)
    (plugins : List PluginM) (an : String) (mods : List PackModule)
    (cs : CoreState) (rs : RunState) (r : CoreState × RunState)
    (h : List.foldlM
      (fun (acc : CoreState × RunState) pm =>
        mergePack cfg bp rp plugins an pm acc.1 acc.2) (cs, rs) mods =
      .ok r) :
    RegPrefix cs r.1 :=
  foldlM_except_inv (fun z : CoreState × RunState => RegPrefix cs z.1) _
    (fun z pm z' hz hP => by
      rcases z' with ⟨cs3, rs3⟩
      exact hP.trans (regPrefix_mergePack _ _ _ _ _ _ _ _ _ _ hz))
    mods (cs, rs) r h (RegPrefix.refl _)

lemma regPrefix_mergePacksModel (cs : CoreState) (config : Config)
    (plugins : List PluginM) (addons : List Addon) (out : MergeOutput)
    (h : mergePacksModel cs config plugins addons = .ok out) :
    RegPrefix cs out.core := by
  rw [mergePacksModel] at h
  obtain ⟨⟨csF, rsF⟩, hfold, hpure⟩ := bind_eq_ok h
  have hinv := foldlM_except_inv
    (fun s : CoreState × RunState => RegPrefix cs s.1)
    _
    (fun s a s' hstep hP => by
      rcases s' with ⟨cs2, rs2⟩
      exact hP.trans (regPrefix_modulesFold _ _ _ _ _ a.modules s.1 s.2
        (cs2, rs2) (by simpa using hstep)))
    addons (cs, initRunState) (csF, rsF) hfold (RegPrefix.refl cs)
  cases hpure
  obtain ⟨-, -, -, -, -, -, -, -, f9⟩ := finishRun_char
    { config with
      duplicateIdentifierWarnings :=
        some (config.duplicateIdentifierWarnings.getD true) }
    (pj config.outDir "BP") (pj config.outDir "RP")
    (plugins ++ [PluginM.core]) csF rsF
  rw [f9]
  exact hinv

/-- The core plugin's module state after a run, when the run succeeded. -/
def coreOf : Except String MergeOutput → Option CoreState
  | .ok out => some out.core
  | .error _ => none

/-- The files written below the behavior module root, when the run
succeeded. -/
def bpFilesOf : Except String MergeOutput → Option (List (String × String))
  | .ok out => some out.run.bpFiles
  | .error _ => none

/-- The length of the caller's plugins array after the run (0 on error). -/
def pluginsLenOf : Except String MergeOutput → Nat
  | .ok out => out.pluginsOut.length
  | .error _ => 0

/-- The caller's config object after the run, when the run succeeded. -/
def configOutOf : Except String MergeOutput → Option Config
  | .ok out => some out.configOut
  | .error _ => none

/-- Fixture: one addon with one behavior module holding a single `blocks`
file (`fileStoneA`). -/
def addonBlockA : Addon :=
  ⟨"A", [⟨"bp", ⟨⟨1, 21, 50⟩, [], []⟩,
    [⟨"blocks", SubDirData.ids [fileStoneA]⟩]⟩]⟩

/-- The module-level core state a run of `addonBlockA` from a fresh process
leaves behind. -/
def csAfterRun1 : CoreState :=
  { CoreState.empty with
    blockIds := [("my:stone", "A/bp/blocks/stone.json")] }

/-- **C2 counterexample.** A first `mergePacks` invocation over `addonBlockA`
(started with empty plugins list and a config without the flag) leaves the
module-level block registry nonempty; a second invocation finding that state
(as the module-level `Map`s persist) starts with the identifier already
registered and copies nothing, unlike a fresh-state run which copies the
file — so the second invocation does **not** start with empty registries.
Moreover the first invocation's plugins array has gained an element (the
pushed core plugin) and its config object has been mutated (the flag
defaulted in place). -/
theorem state_leak_counterexample :
    coreOf (mergePacksModel CoreState.empty cfgFix [] [addonBlockA]) =
      some csAfterRun1 ∧
    csAfterRun1.blockIds ≠ [] ∧
    bpFilesOf (mergePacksModel CoreState.empty cfgFix [] [addonBlockA]) =
      some [("out/BP/blocks/A/stone.json", "rawA")] ∧
    bpFilesOf (mergePacksModel csAfterRun1 cfgFix [] [addonBlockA]) =
      some [] ∧
    pluginsLenOf (mergePacksModel CoreState.empty cfgFix [] [addonBlockA]) =
      1 ∧
    configOutOf (mergePacksModel CoreState.empty cfgFix [] [addonBlockA]) ≠
      some cfgFix := by
  refine ⟨by decide, by decide, by decide, by decide, by decide, by decide⟩

/-- **C2 amended.** `mergePacks` threads the module-level registries it
finds: every identifier registry of the incoming state is a prefix of the
corresponding registry of the state the run leaves for the next invocation
(nothing is reset — dedup state leaks across runs); the caller-supplied
plugins array ends the run with the core plugin appended; and the caller's
config object ends the run with `duplicateIdentifierWarnings` defaulted in
place. -/
theorem registries_persist_and_inputs_mutated (cs : CoreState)
    (config : Config) (plugins : List PluginM) (addons : List Addon)
    (out : MergeOutput)
    (h : mergePacksModel cs config plugins addons = .ok out) :
    RegPrefix cs out.core ∧
    out.pluginsOut = plugins ++ [PluginM.core] ∧
    out.configOut =
      { config with
        duplicateIdentifierWarnings :=
          some (config.duplicateIdentifierWarnings.getD true) } := by
  obtain ⟨-, -, -, -, -, -, c7, c8⟩ :=
    mergePacksModel_ok_char cs config plugins addons out h
  exact ⟨regPrefix_mergePacksModel cs config plugins addons out h, c7, c8⟩

/-- Witness for `registries_persist_and_inputs_mutated`: the second run over
`addonBlockA` starts from `csAfterRun1` and keeps its block registry as a
prefix; the plugins array holds exactly the appended core plugin; the config
ends with the defaulted flag. -/
theorem registries_persist_and_inputs_mutated_witness :
    coreOf (mergePacksModel csAfterRun1 cfgFix [] [addonBlockA]) =
      some csAfterRun1 ∧
    pluginsLenOf (mergePacksModel csAfterRun1 cfgFix [] [addonBlockA]) =
      1 ∧
    configOutOf (mergePacksModel csAfterRun1 cfgFix [] [addonBlockA]) =
      some ⟨"in", "out", some true⟩ := by
  have hok : (mergePacksModel csAfterRun1 cfgFix []
      [addonBlockA]).isOk = true := by decide
  cases hr : mergePacksModel csAfterRun1 cfgFix [] [addonBlockA] with
  | error e =>
    rw [hr] at hok
    exact absurd hok (by simp [Except.isOk, Except.toBool])
  | ok out =>
    obtain ⟨w1, w2, w3⟩ := registries_persist_and_inputs_mutated csAfterRun1
      cfgFix [] [addonBlockA] out hr
    refine ⟨?_, ?_, ?_⟩
    · have hc : coreOf (mergePacksModel csAfterRun1 cfgFix [] [addonBlockA])
          = some csAfterRun1 := by decide
      rw [hr] at hc
      exact hc
    · rw [pluginsLenOf, w2]
      decide
    · rw [configOutOf, w3]
      decide

/-! ## C7: the duplicate-warnings flag only affects warnings

The flag `duplicateIdentifierWarnings` enters the engine only through the
`if dupWarn` of `setOrDuplicateIdWarning`. We relate a run with the flag on
to a run with the flag off by `stripRS`-equality: equality of everything
except the warning counter and the log. -/

/-- Forget the warning counter and the log stream. -/
def stripRS (rs : RunState) : RunState :=
  { rs with warningsCount := 0, log := [] }

lemma stripRS_eq_iff (a b : RunState) :
    stripRS a = stripRS b ↔
      a.manualMergesRequired = b.manualMergesRequired ∧
      a.minEngineVersion = b.minEngineVersion ∧
      a.scriptModuleVersions = b.scriptModuleVersions ∧
      a.scriptEntryPoints = b.scriptEntryPoints ∧
      a.bpFiles = b.bpFiles ∧ a.rpFiles = b.rpFiles := by
  cases a
  cases b
  simp [stripRS, RunState.mk.injEq]

lemma stripRS_warn (m : String) (rs : RunState) :
    stripRS (warn m rs) = stripRS rs := by
  simp [stripRS, warn]

lemma stripRS_info (m : String) (rs : RunState) :
    stripRS (info m rs) = stripRS rs := by
  simp [stripRS, info]

lemma stripRS_requireManualMerge (f r : String) {a b : RunState}
    (h : stripRS a = stripRS b) :
    stripRS (requireManualMerge f r a) = stripRS (requireManualMerge f r b)
    := by
  obtain ⟨h1, h2, h3, h4, h5, h6⟩ := (stripRS_eq_iff a b).mp h
  refine (stripRS_eq_iff _ _).mpr ?_
  simp [requireManualMerge, warn, h1, h2, h3, h4, h5, h6]

lemma stripRS_set_bpFiles {a b : RunState} (h : stripRS a = stripRS b)
    (X : List (String × String)) :
    stripRS { a with bpFiles := X } = stripRS { b with bpFiles := X } := by
  obtain ⟨h1, h2, h3, h4, h5, h6⟩ := (stripRS_eq_iff a b).mp h
  refine (stripRS_eq_iff _ _).mpr ?_
  simp [h1, h2, h3, h4, h5, h6]

lemma stripRS_set_rpFiles {a b : RunState} (h : stripRS a = stripRS b)
    (X : List (String × String)) :
    stripRS { a with rpFiles := X } = stripRS { b with rpFiles := X } := by
  obtain ⟨h1, h2, h3, h4, h5, h6⟩ := (stripRS_eq_iff a b).mp h
  refine (stripRS_eq_iff _ _).mpr ?_
  simp [h1, h2, h3, h4, h5, h6]

/-- Whatever the flag, `setOrDuplicateIdWarning` changes nothing outside the
warning counter and the log. -/
lemma stripRS_setOrDup {α : Type} (d : Bool) (f : String)
    (m : List (String × α)) (k : String) (v : α) (o : Option String)
    (rs : RunState) :
    stripRS ((setOrDuplicateIdWarning d f m k v o rs).2.2) = stripRS rs := by
  cases h : m.lookup k <;> cases d <;>
    simp [setOrDuplicateIdWarning, h, stripRS_warn]

/-- With the flag off, `setOrDuplicateIdWarning` leaves the run state
entirely unchanged: an identifier collision produces zero warnings. -/
lemma setOrDup_flag_off_silent {α : Type} (f : String)
    (m : List (String × α)) (k : String) (v : α) (o : Option String)
    (rs : RunState) :
    ((setOrDuplicateIdWarning false f m k v o rs).2.2) = rs := by
  cases h : m.lookup k <;> simp [setOrDuplicateIdWarning, h]

/-- The table update of `setOrDuplicateIdWarning` depends on neither the
flag, the message arguments, nor the run state. -/
lemma setOrDup_map_eq {α : Type} (d d' : Bool) (f f' : String)
    (m : List (String × α)) (k : String) (v : α) (o o' : Option String)
    (rs rs' : RunState) :
    (setOrDuplicateIdWarning d f m k v o rs).1 =
      (setOrDuplicateIdWarning d' f' m k v o' rs').1 := by
  cases h : m.lookup k <;> simp [setOrDuplicateIdWarning, h]

/-- Neither does its acceptance verdict. -/
lemma setOrDup_accepted_eq {α : Type} (d d' : Bool) (f f' : String)
    (m : List (String × α)) (k : String) (v : α) (o o' : Option String)
    (rs rs' : RunState) :
    (setOrDuplicateIdWarning d f m k v o rs).2.1 =
      (setOrDuplicateIdWarning d' f' m k v o' rs').2.1 := by
  cases h : m.lookup k <;> simp [setOrDuplicateIdWarning, h]

lemma foldl_rel {σ τ α : Type} (R : σ → τ → Prop) (f : σ → α → σ)
    (g : τ → α → τ) (hstep : ∀ s t a, R s t → R (f s a) (g t a)) :
    ∀ (l : List α) (s : σ) (t : τ), R s t → R (l.foldl f s) (l.foldl g t)
    := by
  intro l
  induction l with
  | nil => intro s t h; exact h
  | cons a l ih =>
    intro s t h
    rw [List.foldl_cons, List.foldl_cons]
    exact ih _ _ (hstep s t a h)

/-- Relate a flag-on state to a flag-off state: equal payload, states equal
up to warnings and log. -/
def PairRel {α : Type} (s t : α × RunState) : Prop :=
  s.1 = t.1 ∧ stripRS s.2 = stripRS t.2

lemma sim_mergeIdFile (dd fsn : String) (ids : List (String × String))
    (rs rt : RunState) (file : ContentFile) (h : stripRS rs = stripRS rt) :
    ExceptRel PairRel (mergeIdFile true dd fsn ids rs file)
      (mergeIdFile false dd fsn ids rt file) := by
  rw [mergeIdFile, mergeIdFile]
  cases hf : file.rootEntries.find? (fun p => strStartsWith p.1 "minecraft:")
      with
  | none =>
    simp only [hf]
    simp [ExceptRel]
  | some e =>
    simp only [hf]
    cases hl : ids.lookup e.2 with
    | some w =>
      simp only [setOrDuplicateIdWarning, hl, Bool.false_eq_true, reduceIte]
      exact ⟨rfl, (stripRS_warn _ _).trans h⟩
    | none =>
      simp only [setOrDuplicateIdWarning, hl, reduceIte]
      have hbp : rs.bpFiles = rt.bpFiles :=
        ((stripRS_eq_iff _ _).mp h).2.2.2.2.1
      refine ⟨rfl, ?_⟩
      rw [hbp]
      exact stripRS_set_bpFiles h _

lemma sim_mergeWithDuplicateIdCheck (bp sdn an fsn : String)
    (files : List ContentFile) (ids : List (String × String))
    (rs rt : RunState) (h : stripRS rs = stripRS rt) :
    ExceptRel PairRel
      (mergeWithDuplicateIdCheck true bp sdn an fsn files ids rs)
      (mergeWithDuplicateIdCheck false bp sdn an fsn files ids rt) := by
  rw [mergeWithDuplicateIdCheck, mergeWithDuplicateIdCheck]
  refine foldlM_except_rel PairRel _ _ ?_ files (ids, rs) (ids, rt)
    ⟨rfl, h⟩
  intro s t file hst
  obtain ⟨h1, h2⟩ := hst
  rw [h1]
  exact sim_mergeIdFile _ _ t.1 s.2 t.2 file h2

lemma sim_processLangLine (f : String)
    (s t : List (String × Option String) × RunState) (line : String)
    (hst : PairRel s t) :
    PairRel (processLangLine true f s line)
      (processLangLine false f t line) := by
  obtain ⟨h1, h2⟩ := hst
  rw [processLangLine, processLangLine, h1]
  by_cases hb : strTrim line = "" ∨ strStartsWith (strTrim line) "##"
  · simp only [if_pos hb]
    exact ⟨h1, h2⟩
  · simp only [if_neg hb]
    rcases hsp : splitFirstEq (strTrim line) with ⟨key, value⟩
    simp only []
    by_cases hk : key = "pack.name" ∨ key = "pack.description"
    · simp only [if_pos hk]
      exact ⟨h1, h2⟩
    · simp only [if_neg hk]
      exact ⟨setOrDup_map_eq _ _ _ _ _ _ _ _ _ _ _,
        (stripRS_setOrDup _ _ _ _ _ _ _).trans
          (h2.trans (stripRS_setOrDup _ _ _ _ _ _ _).symm)⟩

lemma sim_mergeTexts (fsn : String) (files : List TextFile)
    (texts : List (String × List (String × Option String)))
    (rs rt : RunState) (h : stripRS rs = stripRS rt) :
    PairRel (mergeTexts true fsn files texts rs)
      (mergeTexts false fsn files texts rt) := by
  rw [mergeTexts, mergeTexts]
  refine foldl_rel PairRel _ _ ?_ files (texts, rs) (texts, rt) ⟨rfl, h⟩
  intro s t file hst
  obtain ⟨h1, h2⟩ := hst
  by_cases hd : file.isDir
  · simp only [hd, reduceIte]
    exact ⟨h1, stripRS_requireManualMerge _ _ h2⟩
  · simp only [hd, Bool.false_eq_true, reduceIte]
    by_cases hlj : file.name = "languages.json"
    · simp only [hlj, reduceIte]
      exact ⟨h1, h2⟩
    · simp only [hlj, reduceIte]
      by_cases hlang : strEndsWith file.name ".lang"
      · simp only [hlang, Bool.not_true, Bool.false_eq_true, reduceIte]
        rw [h1]
        have hin := foldl_rel PairRel
          (processLangLine true (pj fsn file.name))
          (processLangLine false (pj fsn file.name))
          (fun s' t' line hst' =>
            sim_processLangLine (pj fsn file.name) s' t' line hst')
          (splitOnChar (Char.ofNat 10) file.content)
          ((t.1.lookup (strDropRight file.name 5)).getD [], s.2)
          ((t.1.lookup (strDropRight file.name 5)).getD [], t.2)
          ⟨rfl, h2⟩
        refine ⟨?_, ?_⟩
        · simp only []
          rw [hin.1]
        · simp only []
          exact hin.2
      · simp only [hlang, Bool.not_false, reduceIte]
        exact ⟨h1, stripRS_requireManualMerge _ _ h2⟩

lemma sim_mergeModels (fsn : String) (files : List ModelFile)
    (geoms : List (String × String)) (rs rt : RunState)
    (h : stripRS rs = stripRS rt) :
    PairRel (mergeModels true fsn files geoms rs)
      (mergeModels false fsn files geoms rt) := by
  rw [mergeModels, mergeModels]
  refine foldl_rel PairRel _ _ ?_ files (geoms, rs) (geoms, rt) ⟨rfl, h⟩
  intro s t file hst
  obtain ⟨h1, h2⟩ := hst
  by_cases hfv : file.format_version = "1.12.0"
  · rw [if_neg (fun hh => hh hfv), if_neg (fun hh => hh hfv)]
    refine foldl_rel PairRel _ _ ?_ file.geoms s t ⟨h1, h2⟩
    intro s' t' g hst'
    obtain ⟨g1, g2⟩ := hst'
    refine ⟨?_, ?_⟩
    · simp only []
      rw [g1]
      exact setOrDup_map_eq _ _ _ _ _ _ _ _ _ _ _
    · simp only []
      exact (stripRS_setOrDup _ _ _ _ _ _ _).trans
        (g2.trans (stripRS_setOrDup _ _ _ _ _ _ _).symm)
  · rw [if_pos hfv, if_pos hfv]
    exact ⟨h1, stripRS_requireManualMerge _ _ h2⟩

lemma mTE_fst_eq (d d' : Bool) (fn : String)
    (entries tbl : List (String × String)) (rs rs' : RunState) :
    (mergeTextureEntries d fn entries tbl rs).1 =
      (mergeTextureEntries d' fn entries tbl rs').1 := by
  rw [mergeTextureEntries, mergeTextureEntries]
  refine foldl_rel
    (fun s t : List (String × String) × RunState => s.1 = t.1) _ _ ?_
    entries (tbl, rs) (tbl, rs') rfl
  intro s t e hst
  simp only [hst]
  exact setOrDup_map_eq _ _ _ _ _ _ _ _ _ _ _

lemma mTE_strip (d : Bool) (fn : String)
    (entries tbl : List (String × String)) (rs : RunState) :
    stripRS (mergeTextureEntries d fn entries tbl rs).2 = stripRS rs := by
  rw [mergeTextureEntries]
  refine foldl_inv
    (fun s : List (String × String) × RunState =>
      stripRS s.2 = stripRS rs) _ ?_ entries (tbl, rs) rfl
  intro s e hs
  simp only []
  exact (stripRS_setOrDup _ _ _ _ _ _ _).trans hs

lemma exceptRel_bind {σ τ γ δ : Type} (R : σ → τ → Prop)
    (S : γ → δ → Prop) (m : Except String σ) (m' : Except String τ)
    (f : σ → Except String γ) (g : τ → Except String δ)
    (hm : ExceptRel R m m')
    (hf : ∀ s t, R s t → ExceptRel S (f s) (g t)) :
    ExceptRel S (m >>= f) (m' >>= g) := by
  cases m with
  | error e =>
    cases m' with
    | error e' =>
      have he : e = e' := hm
      rw [exceptBind_error, exceptBind_error, he]
      rfl
    | ok t => exact False.elim hm
  | ok s =>
    cases m' with
    | error e' => exact False.elim hm
    | ok t =>
      rw [exceptBind_ok, exceptBind_ok]
      exact hf s t hm

/-- The (run-state independent) table output of `mergeTextureEntries` in a
canonical form, for uniform rewriting. -/
def mteTbl (fn : String) (entries tbl : List (String × String)) :
    List (String × String) :=
  (mergeTextureEntries true fn entries tbl initRunState).1

lemma mTE_fst_canon (d : Bool) (fn : String)
    (entries tbl : List (String × String)) (rs : RunState) :
    (mergeTextureEntries d fn entries tbl rs).1 = mteTbl fn entries tbl :=
  mTE_fst_eq d true fn entries tbl rs initRunState

lemma mTE_mm (d : Bool) (fn : String)
    (entries tbl : List (String × String)) (rs : RunState) :
    ((mergeTextureEntries d fn entries tbl rs).2).manualMergesRequired =
      rs.manualMergesRequired :=
  ((stripRS_eq_iff _ _).mp (mTE_strip d fn entries tbl rs)).1

lemma mTE_bpFiles (d : Bool) (fn : String)
    (entries tbl : List (String × String)) (rs : RunState) :
    ((mergeTextureEntries d fn entries tbl rs).2).bpFiles = rs.bpFiles :=
  ((stripRS_eq_iff _ _).mp (mTE_strip d fn entries tbl rs)).2.2.2.2.1

lemma sim_mergeTextures (rp fsn : String) (t : TexturesIn) (cs : CoreState)
    (rs rt : RunState) (h : stripRS rs = stripRS rt) :
    (mergeTextures true rp fsn t cs rs).1 =
      (mergeTextures false rp fsn t cs rt).1 ∧
    stripRS (mergeTextures true rp fsn t cs rs).2 =
      stripRS (mergeTextures false rp fsn t cs rt).2 := by
  obtain ⟨h1, h2, h3, h4, h5, h6⟩ := (stripRS_eq_iff rs rt).mp h
  rcases t with ⟨fb, it, tt, tree⟩
  cases fb <;> cases it <;> cases tt <;>
    refine ⟨?_, ?_⟩ <;>
    first
    | (simp [mergeTextures, mTE_fst_canon]
       done)
    | (refine (stripRS_eq_iff _ _).mpr ?_
       simp [mergeTextures, mTE_mm, mergeTextureEntries_minEngine,
         mergeTextureEntries_sMV, mergeTextureEntries_sEP, mTE_bpFiles,
         rpFiles_mergeTextureEntries, h1, h2, h3, h4, h5, h6])

/-- Relate dispatch results across the two runs: same claim verdict, same
core state, run states equal up to warnings and log. -/
def TripRel (s t : Bool × CoreState × RunState) : Prop :=
  s.1 = t.1 ∧ s.2.1 = t.2.1 ∧ stripRS s.2.2 = stripRS t.2.2

lemma sim_coreMergeSubDir (bp rp : String) (p : Payload) (data : SubDirData)
    (cs : CoreState) (rs rt : RunState) (h : stripRS rs = stripRS rt) :
    ExceptRel TripRel (coreMergeSubDir true bp rp p data cs rs)
      (coreMergeSubDir false bp rp p data cs rt) := by
  rw [coreMergeSubDir.eq_def, coreMergeSubDir.eq_def]
  split
  case h_1 files _ =>
    refine exceptRel_bind PairRel TripRel _ _ _ _
      (sim_mergeWithDuplicateIdCheck bp p.subDirName p.addonName
        p.fullSubDirName files cs.blockIds rs rt h) ?_
    intro s t hst
    obtain ⟨e1, e2⟩ := hst
    rcases s with ⟨ids, rs'⟩
    rcases t with ⟨ids2, rt'⟩
    have e1' : ids = ids2 := e1
    exact ⟨rfl, by rw [e1'], e2⟩
  case h_2 files _ =>
    refine exceptRel_bind PairRel TripRel _ _ _ _
      (sim_mergeWithDuplicateIdCheck bp p.subDirName p.addonName
        p.fullSubDirName files cs.entityIds rs rt h) ?_
    intro s t hst
    obtain ⟨e1, e2⟩ := hst
    rcases s with ⟨ids, rs'⟩
    rcases t with ⟨ids2, rt'⟩
    have e1' : ids = ids2 := e1
    exact ⟨rfl, by rw [e1'], e2⟩
  case h_3 files _ =>
    refine exceptRel_bind PairRel TripRel _ _ _ _
      (sim_mergeWithDuplicateIdCheck bp p.subDirName p.addonName
        p.fullSubDirName files cs.itemIds rs rt h) ?_
    intro s t hst
    obtain ⟨e1, e2⟩ := hst
    rcases s with ⟨ids, rs'⟩
    rcases t with ⟨ids2, rt'⟩
    have e1' : ids = ids2 := e1
    exact ⟨rfl, by rw [e1'], e2⟩
  case h_4 files _ =>
    have hs := sim_mergeModels p.fullSubDirName files cs.geometries rs rt h
    rcases hx : mergeModels true p.fullSubDirName files cs.geometries rs
      with ⟨g1, rs'⟩
    rcases hy : mergeModels false p.fullSubDirName files cs.geometries rt
      with ⟨g2, rt'⟩
    rw [hx, hy] at hs
    obtain ⟨e1, e2⟩ := hs
    have e1' : g1 = g2 := e1
    have e2' : stripRS rs' = stripRS rt' := e2
    exact ⟨rfl, by rw [e1'], e2'⟩
  case h_5 files _ =>
    refine exceptRel_bind PairRel TripRel _ _ _ _
      (sim_mergeWithDuplicateIdCheck bp p.subDirName p.addonName
        p.fullSubDirName files cs.recipeIds rs rt h) ?_
    intro s t hst
    obtain ⟨e1, e2⟩ := hst
    rcases s with ⟨ids, rs'⟩
    rcases t with ⟨ids2, rt'⟩
    have e1' : ids = ids2 := e1
    exact ⟨rfl, by rw [e1'], e2⟩
  case h_6 files _ =>
    have hbp : rs.bpFiles = rt.bpFiles :=
      ((stripRS_eq_iff _ _).mp h).2.2.2.2.1
    refine ⟨rfl, rfl, ?_⟩
    rw [hbp]
    exact stripRS_set_bpFiles h _
  case h_7 files _ =>
    have hs := sim_mergeTexts p.fullSubDirName files cs.texts rs rt h
    rcases hx : mergeTexts true p.fullSubDirName files cs.texts rs
      with ⟨t1, rs'⟩
    rcases hy : mergeTexts false p.fullSubDirName files cs.texts rt
      with ⟨t2, rt'⟩
    rw [hx, hy] at hs
    obtain ⟨e1, e2⟩ := hs
    have e1' : t1 = t2 := e1
    have e2' : stripRS rs' = stripRS rt' := e2
    exact ⟨rfl, by rw [e1'], e2'⟩
  case h_8 t _ =>
    have hs := sim_mergeTextures rp p.fullSubDirName t cs rs rt h
    rcases hx : mergeTextures true rp p.fullSubDirName t cs rs
      with ⟨cs1, rs'⟩
    rcases hy : mergeTextures false rp p.fullSubDirName t cs rt
      with ⟨cs2, rt'⟩
    rw [hx, hy] at hs
    obtain ⟨e1, e2⟩ := hs
    have e1' : cs1 = cs2 := e1
    have e2' : stripRS rs' = stripRS rt' := e2
    exact ⟨rfl, e1', e2'⟩
  case h_9 =>
    exact ⟨rfl, rfl, h⟩

lemma sim_pluginStep_core (cfgT cfgF : Config) (bp rp : String)
    (p : Payload) (data : SubDirData)
    (hT : cfgT.duplicateIdentifierWarnings = some true)
    (hF : cfgF.duplicateIdentifierWarnings = some false)
    (s t : Bool × CoreState × RunState) (hst : TripRel s t) :
    ExceptRel TripRel (pluginStep cfgT bp rp p data s PluginM.core)
      (pluginStep cfgF bp rp p data t PluginM.core) := by
  obtain ⟨e1, e2, e3⟩ := hst
  simp only [pluginStep, hT, hF, Option.getD_some]
  rw [e2]
  refine exceptRel_bind TripRel TripRel _ _ _ _
    (sim_coreMergeSubDir bp rp p data t.2.1 s.2.2 t.2.2 e3) ?_
  intro u v huv
  rcases u with ⟨r1, cs1, rs1⟩
  rcases v with ⟨r2, cs2, rt2⟩
  obtain ⟨f1, f2, f3⟩ := huv
  have f1' : r1 = r2 := f1
  have f2' : cs1 = cs2 := f2
  have f3' : stripRS rs1 = stripRS rt2 := f3
  exact ⟨by rw [e1, f1'], f2', f3'⟩

lemma sim_mergePackSubDir_core (cfgT cfgF : Config) (bp rp : String)
    (p : Payload) (data : SubDirData)
    (hT : cfgT.duplicateIdentifierWarnings = some true)
    (hF : cfgF.duplicateIdentifierWarnings = some false)
    (cs : CoreState) (rs rt : RunState) (h : stripRS rs = stripRS rt) :
    ExceptRel PairRel
      (mergePackSubDir cfgT bp rp [PluginM.core] p data cs rs)
      (mergePackSubDir cfgF bp rp [PluginM.core] p data cs rt) := by
  rw [mergePackSubDir, mergePackSubDir]
  refine exceptRel_bind TripRel PairRel _ _ _ _ ?_ ?_
  · simp only [List.foldlM_cons, List.foldlM_nil, bind_pure]
    exact sim_pluginStep_core cfgT cfgF bp rp p data hT hF (false, cs, rs)
      (false, cs, rt) ⟨rfl, rfl, h⟩
  · intro u v huv
    rcases u with ⟨m1, cs1, rs1⟩
    rcases v with ⟨m2, cs2, rt2⟩
    obtain ⟨f1, f2, f3⟩ := huv
    have f1' : m1 = m2 := f1
    have f2' : cs1 = cs2 := f2
    have f3' : stripRS rs1 = stripRS rt2 := f3
    subst f1'
    cases m1 with
    | false => exact ⟨f2', stripRS_requireManualMerge _ _ f3'⟩
    | true => exact ⟨f2', f3'⟩

lemma stripRS_set_minE {a b : RunState} (h : stripRS a = stripRS b)
    (X : SemVer) :
    stripRS { a with minEngineVersion := X } =
      stripRS { b with minEngineVersion := X } := by
  obtain ⟨h1, h2, h3, h4, h5, h6⟩ := (stripRS_eq_iff a b).mp h
  refine (stripRS_eq_iff _ _).mpr ?_
  simp [h1, h2, h3, h4, h5, h6]

lemma stripRS_set_sMV {a b : RunState} (h : stripRS a = stripRS b)
    (X : List (String × SemVer)) :
    stripRS { a with scriptModuleVersions := X } =
      stripRS { b with scriptModuleVersions := X } := by
  obtain ⟨h1, h2, h3, h4, h5, h6⟩ := (stripRS_eq_iff a b).mp h
  refine (stripRS_eq_iff _ _).mpr ?_
  simp [h1, h2, h3, h4, h5, h6]

lemma stripRS_set_sEP {a b : RunState} (h : stripRS a = stripRS b)
    (X : List String) :
    stripRS { a with scriptEntryPoints := X } =
      stripRS { b with scriptEntryPoints := X } := by
  obtain ⟨h1, h2, h3, h4, h5, h6⟩ := (stripRS_eq_iff a b).mp h
  refine (stripRS_eq_iff _ _).mpr ?_
  simp [h1, h2, h3, h4, h5, h6]

lemma strip_processDeps (deps : List Dep) {rs rt : RunState}
    (h : stripRS rs = stripRS rt) :
    stripRS (processDeps deps rs) = stripRS (processDeps deps rt) := by
  rw [processDeps, processDeps]
  refine foldl_rel (fun a b : RunState => stripRS a = stripRS b) _ _ ?_
    deps rs rt h
  intro a b dep hab
  obtain ⟨h1, h2, h3, h4, h5, h6⟩ := (stripRS_eq_iff a b).mp hab
  simp only []
  rcases hmn : dep.module_name with _ | name
  · exact hab
  · rw [h3]
    cases hev : b.scriptModuleVersions.lookup name with
    | none =>
      simp only [hev]
      exact stripRS_set_sMV hab _
    | some ex =>
      simp only [hev]
      have hA : stripRS
          (if semverGt dep.version ex = true then
            ({ a with
              scriptModuleVersions :=
                setAssoc b.scriptModuleVersions name dep.version } :
              RunState)
          else a) =
          stripRS
          (if semverGt dep.version ex = true then
            ({ b with
              scriptModuleVersions :=
                setAssoc b.scriptModuleVersions name dep.version } :
              RunState)
          else b) := by
        by_cases hgt : semverGt dep.version ex = true
        · rw [if_pos hgt, if_pos hgt]
          exact stripRS_set_sMV hab _
        · rw [if_neg hgt, if_neg hgt]
          exact hab
      by_cases hsat : (!semverSatisfiesCaret dep.version ex) = true
      · rw [if_pos hsat, if_pos hsat, stripRS_warn, stripRS_warn]
        exact hA
      · rw [if_neg hsat, if_neg hsat]
        exact hA

lemma strip_mergePackPre (an : String) (pm : PackModule)
    {rs rt : RunState} (h : stripRS rs = stripRS rt) :
    stripRS (mergePackPre an pm rs) = stripRS (mergePackPre an pm rt) := by
  obtain ⟨h1, h2, h3, h4, h5, h6⟩ := (stripRS_eq_iff rs rt).mp h
  simp only [mergePackPre]
  refine strip_processDeps _ ?_
  have hA : stripRS
      (if semverGt pm.manifest.min_engine_version rs.minEngineVersion = true
        then ({ rs with
          minEngineVersion := pm.manifest.min_engine_version } : RunState)
      else rs) =
      stripRS
      (if semverGt pm.manifest.min_engine_version rt.minEngineVersion = true
        then ({ rt with
          minEngineVersion := pm.manifest.min_engine_version } : RunState)
      else rt) := by
    rw [h2]
    by_cases hgt :
      semverGt pm.manifest.min_engine_version rt.minEngineVersion = true
    · rw [if_pos hgt, if_pos hgt]
      exact stripRS_set_minE h _
    · rw [if_neg hgt, if_neg hgt]
      exact h
  cases hse : (pm.manifest.modules.find? (fun m => m.type = "script")).bind
      (fun m => m.entry) with
  | none =>
    simp only [hse]
    exact hA
  | some e =>
    simp only [hse]
    by_cases hne : e = ""
    · rw [if_neg (not_not_intro hne), if_neg (not_not_intro hne)]
      exact hA
    · rw [if_pos hne, if_pos hne]
      obtain ⟨g1, g2, g3, g4, g5, g6⟩ := (stripRS_eq_iff _ _).mp hA
      rw [g4]
      exact stripRS_set_sEP hA _

lemma sim_mergePack (cfgT cfgF : Config) (bp rp : String)
    (hT : cfgT.duplicateIdentifierWarnings = some true)
    (hF : cfgF.duplicateIdentifierWarnings = some false)
    (an : String) (pm : PackModule) (s t : CoreState × RunState)
    (hst : PairRel s t) :
    ExceptRel PairRel
      (mergePack cfgT bp rp [PluginM.core] an pm s.1 s.2)
      (mergePack cfgF bp rp [PluginM.core] an pm t.1 t.2) := by
  obtain ⟨e1, e2⟩ := hst
  rw [mergePack, mergePack, e1]
  refine foldlM_except_rel PairRel _ _ ?_ pm.subDirs
    (t.1, mergePackPre an pm s.2) (t.1, mergePackPre an pm t.2)
    ⟨rfl, strip_mergePackPre an pm e2⟩
  intro u v sd huv
  obtain ⟨f1, f2⟩ := huv
  rw [f1]
  exact sim_mergePackSubDir_core cfgT cfgF bp rp _ sd.data hT hF v.1 u.2
    v.2 f2

lemma strip_coreFinishUp (rp : String) (cs : CoreState)
    {rs rt : RunState} (h : stripRS rs = stripRS rt) :
    stripRS (coreFinishUp rp cs rs) = stripRS (coreFinishUp rp cs rt) := by
  obtain ⟨h1, h2, h3, h4, h5, h6⟩ := (stripRS_eq_iff rs rt).mp h
  refine (stripRS_eq_iff _ _).mpr ?_
  rw [coreFinishUp, coreFinishUp]
  by_cases c1 : cs.texts = [] <;>
    by_cases c2 : cs.geometries = [] <;>
    by_cases c3 : cs.flipbookTextureData = [] <;>
    by_cases c4 : cs.itemTextureData = [] <;>
    by_cases c5 : cs.terrainTextureData = [] <;>
    simp [c1, c2, c3, c4, c5, h1, h2, h3, h4, h5, h6]

/-- Relate the observable outcome of the flag-on run to the flag-off run:
everything is equal except the warning counter and the log (and the
written-back config, which records the differing flag value). -/
def OutRel (a b : MergeOutput) : Prop :=
  a.core = b.core ∧ stripRS a.run = stripRS b.run ∧
  a.bpManifest = b.bpManifest ∧ a.rpManifest = b.rpManifest ∧
  a.pluginsOut = b.pluginsOut ∧ a.scriptsIndexWrite = b.scriptsIndexWrite

lemma finishRun_congr (cfgT cfgF : Config) (bp rp : String)
    (pl : List PluginM) (cs : CoreState) (rs rt : RunState)
    (hr : stripRS (runFinishUps cfgT rp pl cs rs) =
      stripRS (runFinishUps cfgF rp pl cs rt)) :
    OutRel (finishRun cfgT bp rp pl cs rs)
      (finishRun cfgF bp rp pl cs rt) := by
  obtain ⟨g1, g2, g3, g4, g5, g6⟩ := (stripRS_eq_iff _ _).mp hr
  simp only [finishRun]
  by_cases hsep : (runFinishUps cfgF rp pl cs rt).scriptEntryPoints = []
  · have hsepT : (runFinishUps cfgT rp pl cs rs).scriptEntryPoints = [] :=
      g4.trans hsep
    simp only [hsepT, hsep, ne_eq, not_true_eq_false, if_false, reduceIte]
    exact ⟨rfl, hr, by rw [g2, g3], by rw [g2], rfl, rfl⟩
  · have hsepT :
        ¬ (runFinishUps cfgT rp pl cs rs).scriptEntryPoints = [] := by
      rw [g4]
      exact hsep
    simp only [ne_eq, hsepT, hsep, not_false_eq_true, if_true, reduceIte]
    refine ⟨rfl, ?_, ?_, ?_, rfl, ?_⟩
    · refine (stripRS_eq_iff _ _).mpr ⟨g1, g2, g3, g4, ?_, g6⟩
      simp only []
      rw [g4, g5]
    · rw [g2, g3]
    · rw [g2]
    · rw [g4]

/-- **C7.** The `duplicateIdentifierWarnings` flag influences only warning
emission, never merged content: a full engine run with the flag `false` is
related to the identical run with the flag `true` by equality of everything
observable except the warning counter and the log — same core registry and
table state, same files written into the output BP and RP, same manual-merge
list, same synthesized manifests, same combined script entry write; and with
the flag off, a call of `setOrDuplicateIdWarning` leaves the run state
entirely unchanged (zero warnings from collisions) while producing exactly
the table update of the flag-on call. -/
theorem duplicate_warning_flag_noninterference
    (cs : CoreState) (input outDir : String) (addons : List Addon) :
    ExceptRel OutRel
      (mergePacksModel cs ⟨input, outDir, some true⟩ [] addons)
      (mergePacksModel cs ⟨input, outDir, some false⟩ [] addons) ∧
    ∀ (f : String) (m : List (String × String)) (k v : String)
      (o : Option String) (rs : RunState),
      (setOrDuplicateIdWarning false f m k v o rs).2.2 = rs ∧
      (setOrDuplicateIdWarning false f m k v o rs).1 =
        (setOrDuplicateIdWarning true f m k v o rs).1 := by
  constructor
  · simp only [mergePacksModel]
    refine exceptRel_bind PairRel OutRel _ _ _ _ ?_ ?_
    · refine foldlM_except_rel PairRel _ _ ?_ addons (cs, initRunState)
        (cs, initRunState) ⟨rfl, rfl⟩
      intro s t addon hst
      refine foldlM_except_rel PairRel _ _ ?_ addon.modules s t hst
      intro u v pm huv
      exact sim_mergePack _ _ _ _ rfl rfl addon.name pm u v huv
    · intro s t hst
      rcases s with ⟨cs1, rs1⟩
      rcases t with ⟨cs2, rt2⟩
      obtain ⟨e1, e2⟩ := hst
      have e1' : cs1 = cs2 := e1
      have e2' : stripRS rs1 = stripRS rt2 := e2
      subst e1'
      exact finishRun_congr _ _ _ _ _ _ _ _
        (strip_coreFinishUp _ cs1 e2')
  · intro f m k v o rs
    exact ⟨setOrDup_flag_off_silent f m k v o rs,
      setOrDup_map_eq false true f f m k v o o rs rs⟩

end PackMerge
